import Mathlib

/-!
# Verification of the kaitrain grid/track/motion core

Shallow embedding of the simulation core of `src/main.js` (an interactive
3D model-railway builder): the grid store, the direction/connectivity
algebra (`getNextState` / `getPreviousState`), the placement engine
(`placeTrackSmart`, `placeTrackPiece`, `placeCrossing`, `deleteTrack`),
the train/consist model (`placeTrain`, `addCarToTrain`,
`followLeadSegment`), the motion engine (`stepTrains` /
`moveSegmentToNextCell`), the crossing state machine (`updateCrossings`)
and layout serialization (`exportLayout` / `loadLayout`).

Modelling conventions:
 * JS numbers carrying fractional progress/timers become `ℚ`;
   grid coordinates become `Int` (JS array indices may be negative).
 * Meshes, sounds, particles and other rendering-only state are omitted;
   mesh *identity* (which the code compares with `===`) is modelled as a
   `Nat` id allocated from a counter in the simulation state.
 * A JS runtime exception (indexing `undefined`) is modelled with
   `Except Unit`, in the motion path where out-of-bounds rows are
   actually reachable.  The placement entry points are only ever invoked
   with in-bounds coordinates (the tap handler checks
   `0 ≤ row,col < GRID_SIZE` first), so they are modelled as total
   functions over `Option`-valued cell lookups.
-/

namespace Kaitrain

/-- The four compass directions of travel (`DIR` in `src/main.js`). -/
inductive Dir : Type
  | up
  | right
  | down
  | left
  deriving DecidableEq, Repr

/-- The ten track piece types (the `trackType` strings of `src/main.js`). -/
inductive TrackType : Type
  | straightH
  | straightV
  | curveTL
  | curveTR
  | curveBL
  | curveBR
  | crossingH
  | crossingV
  | tunnelH
  | tunnelV
  deriving DecidableEq, Repr

/-- A grid cell record.  In JS a cell is either `{ kind: null }` or
`{ kind: 'track', trackType, mesh, isCrossingStart?, isCrossingEnd?,
crossingRow?, crossingCol? }`; absent fields are modelled with `none` /
`false`. -/
structure Cell : Type where
  isTrack : Bool
  trackType : Option TrackType
  meshId : Option Nat
  isCrossingStart : Bool
  isCrossingEnd : Bool
  crossingRow : Option Int
  crossingCol : Option Int
  deriving DecidableEq, Repr

/-- The empty cell `{ kind: null }`. -/
def emptyCell : Cell :=
  ⟨false, none, none, false, false, none, none⟩

/-- A plain (non-crossing) track cell as built by `placeTrackPiece`. -/
def plainTrackCell (tt : TrackType) (m : Nat) : Cell :=
  ⟨true, some tt, some m, false, false, none, none⟩

/-- `GRID_SIZE` from `src/main.js`. -/
def GRID_SIZE : Int := 16

/-- The grid: `grid[row][col]`, a `GRID_SIZE × GRID_SIZE` array of cells. -/
abbrev Grid : Type := List (List Cell)

/-- JS array read `l[i]`: `undefined` (here `none`) off the end or for a
negative index. -/
def jsIdx {α : Type} (l : List α) (i : Int) : Option α :=
  if 0 ≤ i then l[i.toNat]? else none

/-- `grid[r][c]` where the row index is known to be valid (returns the cell,
or `none` when the *column* is out of range).  Used by code paths whose
callers check bounds. -/
def cellAt (g : Grid) (r c : Int) : Option Cell :=
  match jsIdx g r with
  | none => none
  | some rowArr => jsIdx rowArr c

/-- `grid[r][c]` with JS exception semantics: when `grid[r]` is `undefined`
(row out of range) the subsequent `[c]` access throws (`Except.error`).
This is the semantics seen by the motion engine, which can genuinely
produce out-of-range rows. -/
def gridGetJs (g : Grid) (r c : Int) : Except Unit (Option Cell) :=
  match jsIdx g r with
  | none => Except.error ()
  | some rowArr => Except.ok (jsIdx rowArr c)

/-- JS assignment `grid[r][c] := v`.  All call sites in the source execute
with `0 ≤ r,c < GRID_SIZE`, where this agrees with JS exactly; out-of-range
indices are left as a no-op. -/
def setCell (g : Grid) (r c : Int) (v : Cell) : Grid :=
  if 0 ≤ r ∧ 0 ≤ c then
    match jsIdx g r with
    | none => g
    | some rowArr => g.set r.toNat (rowArr.set c.toNat v)
  else g

/-- `initGrid` from `src/main.js`: a `GRID_SIZE × GRID_SIZE` grid of
`{ kind: null }` cells. -/
def initGrid : Grid :=
  List.replicate 16 (List.replicate 16 emptyCell)

/-- `getTrackAt` from `src/main.js` (lines 2426-2435): bounds-checked grid
query returning the cell when it holds track and `null` (`none`) otherwise,
including for every out-of-bounds coordinate. -/
def getTrackAt (g : Grid) (row col : Int) : Option Cell :=
  if row < 0 ∨ GRID_SIZE ≤ row ∨ col < 0 ∨ GRID_SIZE ≤ col then none
  else
    match cellAt g row col with
    | some cell => if cell.isTrack then some cell else none
    | none => none

/-- Result record of `getNextState`:
`{ row, col, exitDir, nextEnterDir }`. -/
structure NextState : Type where
  row : Int
  col : Int
  exitDir : Dir
  nextEnterDir : Dir
  deriving DecidableEq, Repr

/-- `getNextState` from `src/main.js` (lines 2966-3045): the connectivity
algebra.  Given the current cell, the direction of travel used to enter it
and its piece type, produce the next cell, the exit direction, and the
enter direction for the next cell (always equal to the exit direction), or
`null` when the piece does not support the given entry direction. -/
def getNextState (row col : Int) (enterDir : Dir) (trackType : TrackType) :
    Option NextState :=
  match trackType, enterDir with
  | .straightH, .right | .crossingH, .right | .tunnelH, .right =>
      some ⟨row, col + 1, .right, .right⟩
  | .straightH, .left | .crossingH, .left | .tunnelH, .left =>
      some ⟨row, col - 1, .left, .left⟩
  | .straightV, .down | .crossingV, .down | .tunnelV, .down =>
      some ⟨row + 1, col, .down, .down⟩
  | .straightV, .up | .crossingV, .up | .tunnelV, .up =>
      some ⟨row - 1, col, .up, .up⟩
  -- curve-tl connects the TOP edge to the LEFT edge
  | .curveTL, .down => some ⟨row, col - 1, .left, .left⟩
  | .curveTL, .right => some ⟨row - 1, col, .up, .up⟩
  -- curve-tr connects the TOP edge to the RIGHT edge
  | .curveTR, .down => some ⟨row, col + 1, .right, .right⟩
  | .curveTR, .left => some ⟨row - 1, col, .up, .up⟩
  -- curve-bl connects the BOTTOM edge to the LEFT edge
  | .curveBL, .up => some ⟨row, col - 1, .left, .left⟩
  | .curveBL, .right => some ⟨row + 1, col, .down, .down⟩
  -- curve-br connects the BOTTOM edge to the RIGHT edge
  | .curveBR, .up => some ⟨row, col + 1, .right, .right⟩
  | .curveBR, .left => some ⟨row + 1, col, .down, .down⟩
  | _, _ => none

/-- Result record of `getPreviousState`: `{ row, col, enterDir, dir }`. -/
structure PrevState : Type where
  row : Int
  col : Int
  enterDir : Dir
  dir : Dir
  deriving DecidableEq, Repr

/-- `getPreviousState` from `src/main.js` (lines 2898-2963): the inverse
connectivity lookup used for followers.  Walks one cell backwards against
`enterDir`, checks that the previous cell is an in-bounds track cell, and
inverts the piece's exit map to recover the enter direction that produced
this exit.  (A track cell always carries a `trackType` in reachable
states; the JS code would throw on a typeless track cell, which we fold
into the `none` result.) -/
def getPreviousState (g : Grid) (row col : Int) (enterDir : Dir) :
    Option PrevState :=
  let prevRow : Int :=
    match enterDir with
    | .up => row + 1    -- came from below
    | .down => row - 1  -- came from above
    | _ => row
  let prevCol : Int :=
    match enterDir with
    | .left => col + 1  -- came from the right
    | .right => col - 1 -- came from the left
    | _ => col
  let prevExitDir := enterDir
  if prevRow < 0 ∨ GRID_SIZE ≤ prevRow ∨ prevCol < 0 ∨ GRID_SIZE ≤ prevCol then
    none
  else
    match cellAt g prevRow prevCol with
    | none => none
    | some prevCell =>
      if prevCell.isTrack = false then none
      else
        let prevEnterDir : Option Dir :=
          match prevCell.trackType, prevExitDir with
          | some .straightH, d | some .crossingH, d | some .tunnelH, d => some d
          | some .straightV, d | some .crossingV, d | some .tunnelV, d => some d
          | some .curveTL, .left => some .down
          | some .curveTL, .up => some .right
          | some .curveTR, .right => some .down
          | some .curveTR, .up => some .left
          | some .curveBL, .left => some .up
          | some .curveBL, .down => some .right
          | some .curveBR, .right => some .up
          | some .curveBR, .down => some .left
          | _, _ => none
        match prevEnterDir with
        | none => none
        | some d => some ⟨prevRow, prevCol, d, prevExitDir⟩

/-! ## The spec's transition table (for the claim C1 comparison)

The following two definitions transcribe §4.2 of the specification
verbatim; they are *not* read off the source.  Claim C1 asserts that the
source's `getNextState` realizes exactly this table. -/

/-- `exitFor(pieceType, enterDir)` as the spec's §4.2 table states it. -/
def exitForSpecTable : TrackType → Dir → Option Dir
  | .straightH, .right => some .right
  | .straightH, .left => some .left
  | .straightV, .down => some .down
  | .straightV, .up => some .up
  | .curveTL, .down => some .left
  | .curveTL, .right => some .up
  | .curveTR, .down => some .right
  | .curveTR, .left => some .up
  | .curveBL, .up => some .left
  | .curveBL, .right => some .down
  | .curveBR, .up => some .right
  | .curveBR, .left => some .down
  -- the spec: `crossing-h`/`tunnel-h` behave as `straight-h`,
  -- `crossing-v`/`tunnel-v` as `straight-v`
  | .crossingH, .right => some .right
  | .crossingH, .left => some .left
  | .tunnelH, .right => some .right
  | .tunnelH, .left => some .left
  | .crossingV, .down => some .down
  | .crossingV, .up => some .up
  | .tunnelV, .down => some .down
  | .tunnelV, .up => some .up
  | _, _ => none

/-- `cellOffsetFor(exitDir)` as the spec's §4.2 states it:
UP→(-1,0), DOWN→(+1,0), LEFT→(0,-1), RIGHT→(0,+1). -/
def cellOffsetForSpec : Dir → Int × Int
  | .up => (-1, 0)
  | .down => (1, 0)
  | .left => (0, -1)
  | .right => (0, 1)

/-! ## Train / consist model -/

/-- One train segment (engine or car): `{ type, row, col, dir, enterDir,
progress }` (the `mesh` field is rendering-only and omitted). -/
structure Segment : Type where
  stype : String
  row : Int
  col : Int
  dir : Dir
  enterDir : Dir
  progress : ℚ
  deriving DecidableEq, Repr

/-- A train: `{ segments, speed, moving, stopped }`; `segments[0]` is the
engine.  Reachable trains always have at least one segment. -/
structure Train : Type where
  segments : List Segment
  speed : ℚ
  moving : Bool
  stopped : Bool
  deriving DecidableEq, Repr

/-- `train.segments[0]` (JS yields `undefined` past the end). -/
def jsSeg0 (t : Train) : Option Segment :=
  t.segments.head?

/-- A level-crossing entity as pushed by `placeCrossing` (the `mesh` is
modelled by its identity, `dingSound` is audio-only and omitted). -/
structure Crossing : Type where
  row : Int
  col : Int
  meshId : Nat
  active : Bool
  horizontal : Bool
  lightTimer : ℚ
  deactivateTimer : ℚ
  deriving DecidableEq, Repr

/-- The module-level mutable state of `src/main.js` that the core mutates:
`grid`, `crossings`, `trains`, plus a counter for allocating mesh
identities. -/
structure SimState : Type where
  grid : Grid
  crossings : List Crossing
  trains : List Train
  nextMeshId : Nat
  deriving DecidableEq, Repr

/-- `CELL_SIZE` from `src/main.js`. -/
def CELL_SIZE : ℚ := 2

/-- `SEGMENT_SPACING` from `src/main.js` (0.9). -/
def SEGMENT_SPACING : ℚ := mkRat 9 10

/-- `ENGINE_TO_CAR_SPACING` from `src/main.js` (1.05). -/
def ENGINE_TO_CAR_SPACING : ℚ := mkRat 21 20

/-! ## The backward walk shared by car attachment and follower updates

`addCarToTrain` (lines 2171-2227) and `followLeadSegment` (lines
2859-2896) contain the same `while (targetProgress < 0)` loop stepping
backwards through `getPreviousState`; they differ only in what they do
when `getPreviousState` returns `null`.  `backWalk` is that loop; the
callers interpret its two outcomes. -/

/-- Outcome of the backward walk: either the walk terminated with a
non-negative progress at some cell, or `getPreviousState` returned `null`
while progress was still negative (the walk ran off the track at the
recorded cell). -/
inductive BackResult : Type
  | moved (progress : ℚ) (row col : Int) (enterDir dir : Dir)
  | offTrack (row col : Int) (enterDir dir : Dir)
  deriving DecidableEq, Repr

/-- The `while (targetProgress < 0)` loop of `addCarToTrain` /
`followLeadSegment`: add 1 to the progress and step one cell backwards
via `getPreviousState` until the progress is non-negative or the lookup
fails. -/
def backWalk (g : Grid) (p : ℚ) (row col : Int) (enterDir dir : Dir) :
    BackResult :=
  if _h : p < 0 then
    match getPreviousState g row col enterDir with
    | none => .offTrack row col enterDir dir
    | some prev => backWalk g (p + 1) prev.row prev.col prev.enterDir prev.dir
  else .moved p row col enterDir dir
termination_by (Int.ceil (-p)).toNat
decreasing_by
  have hceil : Int.ceil (-(p + 1) : ℚ) = Int.ceil (-p : ℚ) - 1 := by
    rw [show (-(p + 1) : ℚ) = -p - 1 by ring, Int.ceil_sub_one]
  have hpos : 0 < Int.ceil (-p : ℚ) := Int.ceil_pos.mpr (by linarith)
  simp only [hceil]
  omega

/-- `addCarToTrain` from `src/main.js` (lines 2171-2227), restricted to its
simulation-state effect: compute the new car's state a fixed spacing
behind the train's last segment — clamping at `progress = 0` in the
earliest reachable cell if the walk runs off the track — and append it.
(Mesh creation, `updateSegmentPosition` and the place sound are
rendering/audio-only.)  Reachable trains are never empty; JS would throw
on an empty `segments` array. -/
def addCarToTrain (g : Grid) (t : Train) (carType : String) : Train :=
  match t.segments.getLast? with
  | none => t
  | some lastSegment =>
    let segmentIndex := t.segments.length
    let spacing :=
      if segmentIndex = 1 then ENGINE_TO_CAR_SPACING else SEGMENT_SPACING
    let targetDistanceBehind := spacing / CELL_SIZE
    match backWalk g (lastSegment.progress - targetDistanceBehind)
        lastSegment.row lastSegment.col lastSegment.enterDir
        lastSegment.dir with
    | .moved p r c e d =>
        { t with segments := t.segments ++ [⟨carType, r, c, d, e, p⟩] }
    | .offTrack r c e d =>
        { t with segments := t.segments ++ [⟨carType, r, c, d, e, 0⟩] }

/-- `followLeadSegment` from `src/main.js` (lines 2859-2896): recompute a
follower segment's state a fixed spacing behind its leader.  When the
backward walk runs off the track the function returns early, leaving the
follower segment untouched. -/
def followLeadSegment (g : Grid) (seg lead : Segment) (segmentIndex : Nat) :
    Segment :=
  let spacing :=
    if segmentIndex = 1 then ENGINE_TO_CAR_SPACING else SEGMENT_SPACING
  let targetDistanceBehind := spacing / CELL_SIZE
  match backWalk g (lead.progress - targetDistanceBehind)
      lead.row lead.col lead.enterDir lead.dir with
  | .moved p r c e d =>
      { seg with row := r, col := c, progress := p, enterDir := e, dir := d }
  | .offTrack _ _ _ _ => seg

/-- The five-field motion state of a segment (everything
`followLeadSegment` and `addCarToTrain` compute; excludes the
engine/car-type tag). -/
def segMotionState (s : Segment) : Int × Int × Dir × Dir × ℚ :=
  (s.row, s.col, s.enterDir, s.dir, s.progress)

/-! ## Motion engine -/

/-- `moveSegmentToNextCell` from `src/main.js` (lines 2827-2857).  Returns
the updated segment plus the `train.stopped` flag it produces.  Faithful
JS exception semantics: reading `grid[next.row][next.col]` with an
out-of-range *row* throws (`Except.error`), whereas an out-of-range
*column* yields `undefined` and is caught by the `!nextCell` test. -/
def moveSegmentToNextCell (g : Grid) (seg : Segment) :
    Except Unit (Segment × Bool) := do
  let cell? ← gridGetJs g seg.row seg.col
  match cell? with
  | none => Except.error () -- `cell.trackType` on `undefined` throws
  | some cell =>
    let next? :=
      match cell.trackType with
      | some tt => getNextState seg.row seg.col seg.enterDir tt
      | none => none -- `getNextState` matches no branch for a missing type
    match next? with
    | none =>
      -- no valid next cell: freeze at the end of the cell and stop
      Except.ok ({ seg with progress := 1 }, true)
    | some next =>
      let nextCell? ← gridGetJs g next.row next.col
      match nextCell? with
      | none => Except.ok ({ seg with progress := 1 }, true)
      | some nextCell =>
        if nextCell.isTrack = false then
          Except.ok ({ seg with progress := 1 }, true)
        else
          Except.ok
            ({ seg with
                row := next.row
                col := next.col
                dir := next.exitDir
                enterDir := next.nextEnterDir }, false)

/-- The car-follower loop of `stepTrains` (lines 2746-2753): each follower
segment follows the already-updated segment in front of it. -/
def stepCars (g : Grid) (lead : Segment) (cars : List Segment) (i : Nat) :
    List Segment :=
  match cars with
  | [] => []
  | s :: rest =>
    let s1 := followLeadSegment g s lead i
    s1 :: stepCars g s1 rest (i + 1)

/-- The per-train body of `stepTrains` from `src/main.js` (lines
2709-2754), on the `isPlaying = true` path (smoke-particle updates and
`updateSegmentPosition` are rendering-only and omitted): a stopped train
is skipped entirely; a train whose current cell no longer holds track is
stuck; otherwise the engine integrates `speed * delta` into its progress
and on `progress ≥ 1` resets progress to 0 and moves to the next cell
(possibly stopping), after which every car follows its leader. -/
def stepTrain (g : Grid) (t : Train) (delta : ℚ) : Except Unit Train :=
  if t.stopped then Except.ok t
  else
    match t.segments with
    | [] => Except.error () -- `segments[0].row` on an empty array throws
    | eng :: cars =>
      match gridGetJs g eng.row eng.col with
      | .error e => Except.error e
      | .ok none => Except.ok t -- `!engineCell`: train is stuck
      | .ok (some engineCell) =>
        if engineCell.isTrack = false then Except.ok t
        else
          let eng1 := { eng with progress := eng.progress + t.speed * delta }
          let step :=
            if 1 ≤ eng1.progress then
              moveSegmentToNextCell g { eng1 with progress := 0 }
            else Except.ok (eng1, false)
          match step with
          | .error e => Except.error e
          | .ok (eng2, stopFlag) =>
            Except.ok
              { t with
                segments := eng2 :: stepCars g eng2 cars 1
                stopped := stopFlag }

/-- Iterated ticks of a single train (`stepTrains` once per frame),
propagating a JS exception. -/
def stepTrainIter (g : Grid) (delta : ℚ) : Nat → Train → Except Unit Train
  | 0, t => Except.ok t
  | n + 1, t =>
    match stepTrain g t delta with
    | .error e => Except.error e
    | .ok t1 => stepTrainIter g delta n t1

/-! ## Placement engine -/

/-- `cell.trackType && cell.trackType.startsWith('straight-')`. -/
def startsWithStraight : Option TrackType → Bool
  | some .straightH | some .straightV => true
  | _ => false

/-- `cell.trackType && cell.trackType.startsWith('curve-')`. -/
def startsWithCurve : Option TrackType → Bool
  | some .curveTL | some .curveTR | some .curveBL | some .curveBR => true
  | _ => false

/-- `cell.trackType && cell.trackType.startsWith('crossing-')`. -/
def startsWithCrossing : Option TrackType → Bool
  | some .crossingH | some .crossingV => true
  | _ => false

/-- `placeTrackPiece` from `src/main.js` (lines 2329-2351): overwrite one
grid cell with a fresh plain track piece (the mesh swap is
rendering-only; mesh identity is allocated from the counter). -/
def placeTrackPiece (s : SimState) (row col : Int) (tt : TrackType) :
    SimState :=
  { s with grid := setCell s.grid row col (plainTrackCell tt s.nextMeshId),
           nextMeshId := s.nextMeshId + 1 }

/-- A neighbor record of `findNeighborTrack`: the neighbor's coordinates
and the direction of travel that would enter the target cell from it. -/
structure NeighborRef : Type where
  row : Int
  col : Int
  dir : Dir
  deriving DecidableEq, Repr

/-- `findNeighborTrack` from `src/main.js` (lines 2235-2263): probe the
four neighbors in priority order UP, RIGHT, DOWN, LEFT and return the
first in-bounds track neighbor (the JS code collects all of them and
returns the first). -/
def findNeighborTrack (g : Grid) (row col : Int) : Option NeighborRef :=
  let neighbors : List NeighborRef :=
    [⟨row - 1, col, .down⟩, ⟨row, col + 1, .left⟩,
     ⟨row + 1, col, .up⟩, ⟨row, col - 1, .right⟩]
  neighbors.find? fun n =>
    decide (0 ≤ n.row) && decide (n.row < GRID_SIZE) &&
    decide (0 ≤ n.col) && decide (n.col < GRID_SIZE) &&
    (match cellAt g n.row n.col with
     | some c => c.isTrack
     | none => false)

/-- `placeTrackSmart` from `src/main.js` (lines 2266-2326): the straight
tool (toggle an existing straight in place, otherwise only fill empty
cells, inferring orientation from the first track neighbor) and the curve
tool (cycle `[tl, tr, bl, br]` on an existing curve, otherwise place
`curve-tl`).  Callers pass in-bounds coordinates. -/
def placeTrackSmart (s : SimState) (row col : Int) (mode : String) :
    SimState :=
  match cellAt s.grid row col with
  | none => s
  | some cell =>
    if mode = "straight" then
      if cell.isTrack && startsWithStraight cell.trackType then
        placeTrackPiece s row col
          (if cell.trackType = some .straightH then .straightV else .straightH)
      else if cell.isTrack then s -- don't overwrite non-straight tracks
      else
        match findNeighborTrack s.grid row col with
        | none => placeTrackPiece s row col .straightH
        | some n =>
          if n.dir = .left ∨ n.dir = .right then
            placeTrackPiece s row col .straightH
          else
            placeTrackPiece s row col .straightV
    else if mode = "curve" then
      let allCurves : List TrackType := [.curveTL, .curveTR, .curveBL, .curveBR]
      if cell.isTrack && startsWithCurve cell.trackType then
        let nextIndex : Nat :=
          match cell.trackType with
          | some ct =>
            match allCurves.findIdx? (fun x => x == ct) with
            | none => 0 -- `indexOf === -1`
            | some i => (i + 1) % allCurves.length
          | none => 0
        placeTrackPiece s row col (allCurves.getD nextIndex .curveTL)
      else
        placeTrackPiece s row col .curveTL -- `allCurves[0]`
    else s

/-- `deleteTrack` from `src/main.js` (lines 2353-2424).  On a crossing
cell: remove the crossing entity matching the start cell and mesh, clear
both of the crossing's cells, and delete every train whose engine sits on
either cell.  On any other track cell: clear that cell and delete every
train whose engine sits on it.  (Callers pass in-bounds coordinates;
sounds and meshes are omitted.) -/
def deleteTrack (s : SimState) (row col : Int) : SimState :=
  match cellAt s.grid row col with
  | none => s
  | some cell =>
    if cell.isTrack then
      if startsWithCrossing cell.trackType then
        let isHorizontal := cell.trackType = some .crossingH
        let startRow := cell.crossingRow.getD row
        let startCol := cell.crossingCol.getD col
        let idx? := s.crossings.findIdx? fun c =>
          decide (c.row = startRow) && decide (c.col = startCol) &&
          decide (some c.meshId = cell.meshId)
        let cs1 :=
          match idx? with
          | some i => s.crossings.eraseIdx i
          | none => s.crossings
        let g1 := setCell s.grid startRow startCol emptyCell
        let endRow := if isHorizontal then startRow else startRow + 1
        let endCol := if isHorizontal then startCol + 1 else startCol
        let g2 :=
          if endRow < GRID_SIZE ∧ endCol < GRID_SIZE then
            setCell g1 endRow endCol emptyCell
          else g1
        let ts1 := s.trains.filter fun t =>
          match jsSeg0 t with
          | some e =>
            !((decide (e.row = startRow) && decide (e.col = startCol)) ||
              (decide (e.row = endRow) && decide (e.col = endCol)))
          | none => true -- JS would throw; trains always carry an engine
        { s with grid := g2, crossings := cs1, trains := ts1 }
      else
        let ts1 := s.trains.filter fun t =>
          match jsSeg0 t with
          | some e => !(decide (e.row = row) && decide (e.col = col))
          | none => true
        { s with grid := setCell s.grid row col emptyCell, trains := ts1 }
    else s

/-- `north && north.trackType && north.trackType.includes('-v')` for an
optional neighbor cell (only `straight-v`, `crossing-v`, `tunnel-v`
contain the substring `-v`). -/
def includesVAxis : Option Cell → Bool
  | some c =>
    match c.trackType with
    | some .straightV | some .crossingV | some .tunnelV => true
    | _ => false
  | none => false

/-- `east && east.trackType && east.trackType.includes('-h')` (only
`straight-h`, `crossing-h`, `tunnel-h` contain the substring `-h`). -/
def includesHAxis : Option Cell → Bool
  | some c =>
    match c.trackType with
    | some .straightH | some .crossingH | some .tunnelH => true
    | _ => false
  | none => false

/-- The orientation inference of `placeCrossing` (lines 2439-2450): probe
the four neighbors with `getTrackAt`, compute `hasVertical` from
north/south and `hasHorizontal` from east/west, default to horizontal
unless vertical tracks were detected (the final
`if (hasHorizontal && !hasVertical)` assignment is the source's). -/
def derivedHorizontal (g : Grid) (row col : Int) : Bool :=
  let north := getTrackAt g (row - 1) col
  let south := getTrackAt g (row + 1) col
  let east := getTrackAt g row (col + 1)
  let west := getTrackAt g row (col - 1)
  let hasVertical := includesVAxis north || includesVAxis south
  let hasHorizontal := includesHAxis east || includesHAxis west
  let horizontal := !hasVertical
  if hasHorizontal && !hasVertical then true else horizontal

/-- `placeCrossing` from `src/main.js` (lines 2437-2537): infer the
orientation from the neighbors, give up (no-op) when the second cell
would fall off the grid or already belongs to a crossing, delete any
crossing currently under either cell, then mark both cells and push the
crossing entity. -/
def placeCrossing (s : SimState) (row col : Int) : SimState :=
  let horizontal := derivedHorizontal s.grid row col
  let trackType := if horizontal then TrackType.crossingH else TrackType.crossingV
  let nextRow := if horizontal then row else row + 1
  let nextCol := if horizontal then col + 1 else col
  if GRID_SIZE ≤ nextRow ∨ GRID_SIZE ≤ nextCol then
    s -- 'Not enough space for crossing'
  else
    let nextCell := cellAt s.grid nextRow nextCol
    if (match nextCell with
        | some c => startsWithCrossing c.trackType
        | none => false) then
      s -- 'already occupied by another crossing'
    else
      let currentCell := cellAt s.grid row col
      let s1 :=
        match currentCell with
        | some c =>
          if c.meshId.isSome then
            if startsWithCrossing c.trackType then deleteTrack s row col
            else s -- only `scene.remove`
          else s
        | none => s
      let s2 :=
        match nextCell with
        | some c =>
          if c.meshId.isSome then
            if startsWithCrossing c.trackType then deleteTrack s1 nextRow nextCol
            else s1
          else s1
        | none => s1
      let m := s2.nextMeshId
      let g1 := setCell s2.grid row col
        ⟨true, some trackType, some m, true, false, some row, some col⟩
      let g2 := setCell g1 nextRow nextCol
        ⟨true, some trackType, some m, false, true, some row, some col⟩
      { grid := g2,
        crossings := s2.crossings ++
          [⟨row, col, m, false, horizontal, 0, 0⟩],
        trains := s2.trains,
        nextMeshId := m + 1 }

/-- `placeTrain` from `src/main.js` (lines 2579-2688), restricted to its
simulation-state effect: require track, replace any train whose engine
occupies the cell, choose the piece's canonical initial direction, and
push a fresh one-segment train with `progress = 0` and `speed = 1.5` cells/sec. -/
def placeTrain (s : SimState) (row col : Int) (engineType : String) :
    SimState :=
  match cellAt s.grid row col with
  | none => s
  | some cell =>
    if cell.isTrack = false then s
    else
      let ts1 := s.trains.filter fun t =>
        match jsSeg0 t with
        | some e => !(decide (e.row = row) && decide (e.col = col))
        | none => true
      let dirs : Dir × Dir :=
        match cell.trackType with
        | some .straightV | some .crossingV | some .tunnelV => (.down, .down)
        | some .curveTL | some .curveTR => (.down, .down)
        | some .curveBL | some .curveBR => (.up, .up)
        | _ => (.right, .right)
      { s with trains := ts1 ++
          [⟨[⟨engineType, row, col, dirs.1, dirs.2, 0⟩], mkRat 3 2, false, false⟩] }

/-! ## Crossing state machine -/

/-- The second cell of a crossing's two-cell footprint, derived from
`(row, col, horizontal)` as in `updateCrossings` (lines 3241-3244). -/
def crossingSecondCell (c : Crossing) : Int × Int :=
  if c.horizontal then (c.row, c.col + 1) else (c.row + 1, c.col)

/-- The occupancy scan of `updateCrossings` (lines 3246-3256): true iff
some segment of some non-stopped train sits on either of the crossing's
two cells. -/
def crossingOccupied (ts : List Train) (c : Crossing) : Bool :=
  ts.any fun t =>
    !t.stopped &&
    t.segments.any fun seg =>
      (decide (seg.row = c.row) && decide (seg.col = c.col)) ||
      (decide (seg.row = (crossingSecondCell c).1) &&
       decide (seg.col = (crossingSecondCell c).2))

/-- The per-crossing body of `updateCrossings` from `src/main.js` (lines
3236-3274), restricted to the semantic state (the light/arm animation on
the mesh is rendering-only): occupancy activates immediately and pins the
deactivation timer at 0; vacancy while active accumulates `delta` and
deactivates once the timer reaches 1.0 s (`activateCrossing` /
`deactivateCrossing` set the `active` flag; their sounds are omitted). -/
def updateCrossing (ts : List Train) (delta : ℚ) (c : Crossing) : Crossing :=
  if crossingOccupied ts c then
    { c with active := true, deactivateTimer := 0 }
  else if c.active then
    let timer := c.deactivateTimer + delta
    if 1 ≤ timer then { c with active := false, deactivateTimer := 0 }
    else { c with deactivateTimer := timer }
  else c

/-- `updateCrossings` over the crossing list (the `isPlaying = true`
path). -/
def updateCrossings (ts : List Train) (cs : List Crossing) (delta : ℚ) :
    List Crossing :=
  cs.map (updateCrossing ts delta)

/-! ## Layout serialization -/

/-- One entry of the layout document's `tracks` array. -/
structure LayoutTrack : Type where
  row : Int
  col : Int
  trackType : TrackType
  deriving DecidableEq, Repr

/-- One entry of the layout document's `trains` array. -/
structure LayoutTrain : Type where
  row : Int
  col : Int
  engineType : String
  dir : Dir
  enterDir : Dir
  cars : List String
  deriving DecidableEq, Repr

/-- One entry of the layout document's `crossings` array. -/
structure LayoutCrossing : Type where
  row : Int
  col : Int
  horizontal : Bool
  deriving DecidableEq, Repr

/-- The layout document. -/
structure Layout : Type where
  tracks : List LayoutTrack
  trains : List LayoutTrain
  crossings : List LayoutCrossing
  deriving DecidableEq, Repr

/-- Row-major `0..GRID_SIZE-1` as integers. -/
def intRange16 : List Int :=
  (List.range 16).map (fun n => (n : Int))

/-- `exportLayout` from `src/main.js` (lines 3416-3465): collect every
track cell except crossing end cells (row-major), the engine state and
car types of every train, and the `(row, col, horizontal)` of every
crossing. -/
def exportLayout (s : SimState) : Layout where
  tracks :=
    intRange16.flatMap fun r =>
      intRange16.filterMap fun c =>
        match cellAt s.grid r c with
        | some cell =>
          match cell.trackType with
          | some tt =>
            if cell.isTrack && !cell.isCrossingEnd then some ⟨r, c, tt⟩
            else none
          | none => none
        | none => none
  trains :=
    s.trains.filterMap fun t =>
      match jsSeg0 t with
      | some e =>
        some ⟨e.row, e.col, e.stype, e.dir, e.enterDir,
          (t.segments.drop 1).map (fun seg => seg.stype)⟩
      | none => none -- JS would throw; trains always carry an engine
  crossings :=
    s.crossings.map fun c => ⟨c.row, c.col, c.horizontal⟩

/-- The clearing prologue of `loadLayout` (lines 3471-3485): empty every
grid cell and both entity lists. -/
def loadClear (s : SimState) : SimState :=
  { grid := initGrid, crossings := [], trains := [],
    nextMeshId := s.nextMeshId }

/-- The `crossingCells` set of `loadLayout` (lines 3488-3496): both cells
of every document crossing, the second derived from `horizontal`. -/
def crossingCellsOf (l : Layout) : List (Int × Int) :=
  l.crossings.flatMap fun cr =>
    let nextRow := if cr.horizontal then cr.row else cr.row + 1
    let nextCol := if cr.horizontal then cr.col + 1 else cr.col
    [(cr.row, cr.col), (nextRow, nextCol)]

/-- The track-loading phase of `loadLayout` (lines 3499-3506): place every
document track except those on crossing cells. -/
def loadTracks (s : SimState) (l : Layout) : SimState :=
  l.tracks.foldl
    (fun st tr =>
      if (tr.row, tr.col) ∈ crossingCellsOf l then st
      else placeTrackPiece st tr.row tr.col tr.trackType)
    s

/-- The crossing-loading phase of `loadLayout` (lines 3509-3514): replay
`placeCrossing` for every document crossing (which re-derives its
orientation and second cell). -/
def loadCrossings (s : SimState) (l : Layout) : SimState :=
  l.crossings.foldl (fun st cr => placeCrossing st cr.row cr.col) s

/-- Loading one document train (lines 3518-3541): place the engine, then
overwrite the new train's `dir` / `enterDir` from the document and
re-attach its cars via `addCarToTrain` (the final
`updateSegmentPosition` pass is rendering-only). -/
def loadOneTrain (st : SimState) (td : LayoutTrain) : SimState :=
  let st1 := placeTrain st td.row td.col td.engineType
  match st1.trains.getLast? with
  | none => st1 -- `if (train)` guard
  | some train =>
    let train1 :=
      match train.segments with
      | e :: rest =>
        { train with segments :=
            { e with dir := td.dir, enterDir := td.enterDir } :: rest }
      | [] => train
    let train2 := td.cars.foldl (fun tr ct => addCarToTrain st1.grid tr ct) train1
    { st1 with trains := st1.trains.dropLast ++ [train2] }

/-- The train-loading phase of `loadLayout`. -/
def loadTrains (s : SimState) (l : Layout) : SimState :=
  l.trains.foldl loadOneTrain s

/-- `loadLayout` from `src/main.js` (lines 3470-3543): clear, load tracks
(skipping crossing-owned cells), load crossings, load trains. -/
def loadLayout (s : SimState) (l : Layout) : SimState :=
  loadTrains (loadCrossings (loadTracks (loadClear s) l) l) l

/-! ## Statement helpers -/

/-- The track type held at a cell (`none` for empty or out-of-bounds
cells). -/
def cellTrackType (s : SimState) (r c : Int) : Option TrackType :=
  match cellAt s.grid r c with
  | some cell => if cell.isTrack then cell.trackType else none
  | none => none

/-- The grid is a well-formed `16 × 16` array. -/
def gridDims (g : Grid) : Prop :=
  g.length = 16 ∧ ∀ rowArr ∈ g, rowArr.length = 16

/-- The initial module state: empty grid, no crossings, no trains. -/
def emptyState : SimState :=
  ⟨initGrid, [], [], 0⟩

/-! ## Concrete fixtures used by witnesses and counterexamples -/

/-- A single `curve-tl` piece at cell `(1,1)`. -/
def exCurveGrid : Grid := setCell initGrid 1 1 (plainTrackCell .curveTL 0)

/-- A single `straight-h` piece at cell `(0,0)`. -/
def exOneStraightGrid : Grid := setCell initGrid 0 0 (plainTrackCell .straightH 0)

/-- Two `straight-h` pieces at `(0,0)` and `(0,1)`. -/
def exTwoStraightGrid : Grid :=
  setCell exOneStraightGrid 0 1 (plainTrackCell .straightH 1)

/-- A single `straight-v` piece at the top-edge cell `(0,0)`. -/
def exTopStraightVGrid : Grid := setCell initGrid 0 0 (plainTrackCell .straightV 0)

/-- A single `straight-h` piece at the right-edge cell `(0,15)`. -/
def exRightEdgeGrid : Grid := setCell initGrid 0 15 (plainTrackCell .straightH 0)

/-- A reachable layout: `straight-h` at `(1,0)`, `curve-tl` at `(1,1)`,
`straight-v` at `(0,1)`, and a train placed at `(1,0)` (so the engine
will climb to the top edge and then leave the grid upwards). -/
def exClimbState : SimState :=
  placeTrain
    (placeTrackPiece (placeTrackPiece (placeTrackPiece emptyState 1 0 .straightH)
      1 1 .curveTL) 0 1 .straightV)
    1 0 "engine-steam"

/-- The engine train that `placeTrain` creates in `exClimbState`. -/
def climbTrain : Train :=
  ⟨[⟨"engine-steam", 1, 0, .right, .right, 0⟩], mkRat 3 2, false, false⟩

/-- `climbTrain` after one tick of `Δt = 2/3 s`: engine moved onto the
curve at `(1,1)`. -/
def climbTrainA : Train :=
  ⟨[⟨"engine-steam", 1, 1, .right, .right, 0⟩], mkRat 3 2, false, false⟩

/-- `climbTrainA` after one more tick: engine moved up onto the
`straight-v` at `(0,1)`, now travelling UP at the top edge. -/
def climbTrainB : Train :=
  ⟨[⟨"engine-steam", 0, 1, .up, .up, 0⟩], mkRat 3 2, false, false⟩

/-- `straight-v` at `(0,1)` (north neighbor) and `straight-h` at `(1,2)`
(east neighbor) of the target cell `(1,1)`: both axes present. -/
def exBothAxesState : SimState :=
  placeTrackPiece (placeTrackPiece emptyState 0 1 .straightV) 1 2 .straightH

/-- A horizontal crossing placed on the empty grid at `(2,2)`
(occupying `(2,2)` and `(2,3)`). -/
def exCrossingState : SimState := placeCrossing emptyState 2 2

/-- The crossing state plus a train whose engine sits on `(2,2)`. -/
def exCrossTrainState : SimState := placeTrain exCrossingState 2 2 "engine-steam"

/-- A leader segment at `(0,0)` heading RIGHT with progress `0.3`. -/
def cLead : Segment := ⟨"engine-steam", 0, 0, .right, .right, mkRat 3 10⟩

/-- A stale follower segment with progress `0.7`. -/
def cStale : Segment := ⟨"car-passenger", 0, 0, .right, .right, mkRat 7 10⟩

/-- A one-segment train whose engine is `cLead`. -/
def cTrainOne : Train := ⟨[cLead], mkRat 3 2, false, false⟩

/-- A leader segment at `(0,1)` heading RIGHT with progress `0.3`. -/
def cLead2 : Segment := ⟨"engine-steam", 0, 1, .right, .right, mkRat 3 10⟩

/-- A one-segment train whose engine is `cLead2`. -/
def cTrainTwo : Train := ⟨[cLead2], mkRat 3 2, false, false⟩

/-- An engine segment entering the top-edge cell `(0,0)` heading UP. -/
def segTopV : Segment := ⟨"engine-steam", 0, 0, .up, .up, 0⟩

/-- An engine segment entering the right-edge cell `(0,15)` heading
RIGHT. -/
def segRightEdge : Segment := ⟨"engine-steam", 0, 15, .right, .right, 0⟩

/-- An active crossing with `0.25 s` of accumulated vacancy. -/
def cWitnessCrossing : Crossing := ⟨2, 3, 0, true, true, 0, mkRat 1 4⟩

/-- A reachable state built from four user taps: straight tool twice on
`(0,0)` (placing `straight-h`, then toggling to `straight-v`), crossing
tool on `(1,0)` (vertical, because of the `straight-v` north neighbor),
then delete on `(0,0)`.  The surviving vertical crossing now has no
vertical neighbor. -/
def exRoundTripState : SimState :=
  deleteTrack
    (placeCrossing
      (placeTrackSmart (placeTrackSmart emptyState 0 0 "straight") 0 0 "straight")
      1 0)
    0 0

/-- A lone horizontal crossing at `(5,5)` on the empty grid. -/
def exLoneCrossingState : SimState := placeCrossing emptyState 5 5

/-! ## Statement helpers for the delete tool and serialization claims -/

/-- The crossing end-cell row that `deleteTrack` clears, as derived from
the clicked cell's record (`isHorizontal` is
`cell.trackType === 'crossing-h'`). -/
def delEndRow (cell : Cell) (sr : Int) : Int :=
  if cell.trackType = some .crossingH then sr else sr + 1

/-- The crossing end-cell column that `deleteTrack` clears. -/
def delEndCol (cell : Cell) (sc : Int) : Int :=
  if cell.trackType = some .crossingH then sc + 1 else sc

/-- The `(row, col, horizontal)` projection of a crossing entity (what the
layout document records about it). -/
def projCrossing (e : Crossing) : LayoutCrossing :=
  ⟨e.row, e.col, e.horizontal⟩

/-- The track type of a crossing entity's two cells. -/
def crossTT (e : Crossing) : TrackType :=
  if e.horizontal then .crossingH else .crossingV

/-- The two-cell footprint of a crossing entity. -/
def crossFootprint (e : Crossing) : List (Int × Int) :=
  [(e.row, e.col), crossingSecondCell e]

/-- The second cell of a document crossing entry. -/
def lcSecond (cr : LayoutCrossing) : Int × Int :=
  if cr.horizontal then (cr.row, cr.col + 1) else (cr.row + 1, cr.col)

/-- The two-cell footprint of a document crossing entry. -/
def lcFootprint (cr : LayoutCrossing) : List (Int × Int) :=
  [(cr.row, cr.col), lcSecond cr]

/-- Orientation stability of a crossing-load sequence: replaying
`placeCrossing` for the document's crossings (in order), each
re-derivation of the orientation from the grid at that point agrees with
the orientation recorded in the document. -/
def agreeFromB (st : SimState) : List LayoutCrossing → Bool
  | [] => true
  | cr :: rest =>
    (derivedHorizontal st.grid cr.row cr.col == cr.horizontal) &&
    agreeFromB (placeCrossing st cr.row cr.col) rest

/-- Well-formedness of a layout state, as established by the placement
engine: the grid is `16 × 16`; a track cell is flagged `isCrossingEnd`
only if it is the second cell of some crossing entity; every crossing
entity's two-cell footprint is in bounds and holds track cells of the
entity's crossing type; and distinct entities have disjoint
footprints. -/
structure RoundTripWF (s : SimState) : Prop where
  dims : gridDims s.grid
  endCells : ∀ r ∈ intRange16, ∀ c ∈ intRange16,
    ∀ cell ∈ (cellAt s.grid r c).toList,
      cell.isTrack = true → cell.isCrossingEnd = true →
      ∃ e ∈ s.crossings, (r, c) = crossingSecondCell e
  entities : ∀ e ∈ s.crossings,
    (0 ≤ e.row ∧ e.row < 16 ∧ 0 ≤ e.col ∧ e.col < 16 ∧
      (crossingSecondCell e).1 < 16 ∧ (crossingSecondCell e).2 < 16) ∧
    ∀ p ∈ crossFootprint e,
      ∃ cell ∈ (cellAt s.grid p.1 p.2).toList,
        cell.isTrack = true ∧ cell.trackType = some (crossTT e)
  disjointFp : s.crossings.Pairwise fun e1 e2 =>
    ∀ p ∈ crossFootprint e1, p ∉ crossFootprint e2

/-! # Theorems -/

/-! ## Grid store lemmas -/

lemma cellAt_setCell_ne (g : Grid) (row col r c : Int) (v : Cell)
    (h : ¬(r = row ∧ c = col)) :
    cellAt (setCell g row col v) r c = cellAt g r c := by
  by_cases h0 : 0 ≤ row ∧ 0 ≤ col
  · obtain ⟨hr0, hc0⟩ := h0
    unfold setCell
    rw [if_pos ⟨hr0, hc0⟩]
    cases hrowArr : jsIdx g row with
    | none => rfl
    | some rowArr =>
      unfold jsIdx at hrowArr
      rw [if_pos hr0] at hrowArr
      unfold cellAt jsIdx
      by_cases hr : 0 ≤ r
      · rw [if_pos hr, if_pos hr]
        by_cases hrr : r = row
        · subst hrr
          have hcc : ¬c = col := fun hc => h ⟨rfl, hc⟩
          have hlt : r.toNat < g.length := by
            rcases List.getElem?_eq_some.mp hrowArr with ⟨hl, _⟩
            exact hl
          rw [List.getElem?_set_eq_of_lt _ hlt, hrowArr]
          simp only []
          by_cases hc : 0 ≤ c
          · rw [if_pos hc, if_pos hc]
            have : col.toNat ≠ c.toNat := by omega
            rw [List.getElem?_set_ne this]
          · rw [if_neg hc, if_neg hc]
        · have : row.toNat ≠ r.toNat := by omega
          rw [List.getElem?_set_ne this]
      · rw [if_neg hr, if_neg hr]
  · unfold setCell
    rw [if_neg h0]

lemma cellAt_setCell_self (g : Grid) (row col : Int) (v cell0 : Cell)
    (h : cellAt g row col = some cell0) :
    cellAt (setCell g row col v) row col = some v := by
  unfold cellAt at h
  cases hrowArr : jsIdx g row with
  | none => rw [hrowArr] at h; exact absurd h (by simp)
  | some rowArr =>
    rw [hrowArr] at h
    simp only [] at h
    unfold jsIdx at hrowArr h
    by_cases hr0 : 0 ≤ row
    · rw [if_pos hr0] at hrowArr
      by_cases hc0 : 0 ≤ col
      · rw [if_pos hc0] at h
        have hltr : row.toNat < g.length := by
          rcases List.getElem?_eq_some.mp hrowArr with ⟨hl, _⟩
          exact hl
        have hltc : col.toNat < rowArr.length := by
          rcases List.getElem?_eq_some.mp h with ⟨hl, _⟩
          exact hl
        unfold setCell
        rw [if_pos ⟨hr0, hc0⟩]
        unfold jsIdx
        rw [if_pos hr0]
        unfold cellAt jsIdx
        rw [if_pos hr0, hrowArr]
        simp only []
        rw [List.getElem?_set_eq_of_lt _ hltr]
        simp only []
        rw [if_pos hc0,
          List.getElem?_set_eq_of_lt _ (by simpa using hltc)]
      · rw [if_neg hc0] at h; exact absurd h (by simp)
    · rw [if_neg hr0] at hrowArr; exact absurd hrowArr (by simp)

lemma gridDims_setCell (g : Grid) (row col : Int) (v : Cell)
    (h : gridDims g) : gridDims (setCell g row col v) := by
  obtain ⟨hlen, hrows⟩ := h
  unfold setCell
  split
  · cases hrowArr : jsIdx g row with
    | none => exact ⟨hlen, hrows⟩
    | some rowArr =>
      refine ⟨by simpa using hlen, ?_⟩
      intro ra hra
      rcases List.mem_or_eq_of_mem_set hra with hmem | heq
      · exact hrows ra hmem
      · subst heq
        have : rowArr ∈ g := by
          unfold jsIdx at hrowArr
          split at hrowArr
          · exact List.getElem?_mem hrowArr
          · exact absurd hrowArr (by simp)
        simpa using hrows rowArr this
  · exact ⟨hlen, hrows⟩

lemma cellAt_initGrid (r c : Int) :
    cellAt initGrid r c =
      if 0 ≤ r ∧ r < 16 ∧ 0 ≤ c ∧ c < 16 then some emptyCell else none := by
  unfold cellAt initGrid jsIdx
  by_cases hr : 0 ≤ r
  · rw [if_pos hr]
    by_cases hr16 : r < 16
    · have : r.toNat < 16 := by omega
      rw [List.getElem?_replicate_of_lt (by simpa using this)]
      simp only []
      by_cases hc : 0 ≤ c
      · rw [if_pos hc]
        by_cases hc16 : c < 16
        · have : c.toNat < 16 := by omega
          rw [List.getElem?_replicate_of_lt (by simpa using this)]
          rw [if_pos ⟨hr, hr16, hc, hc16⟩]
        · rw [List.getElem?_eq_none (by simp; omega)]
          rw [if_neg (by omega)]
      · rw [if_neg hc, if_neg (by omega)]
    · rw [List.getElem?_eq_none (by simp; omega)]
      rw [if_neg (by omega)]
  · rw [if_neg hr, if_neg (by omega)]

lemma cellAt_some_of_dims (g : Grid) (r c : Int) (h : gridDims g)
    (hr : 0 ≤ r ∧ r < 16) (hc : 0 ≤ c ∧ c < 16) :
    ∃ cell, cellAt g r c = some cell := by
  obtain ⟨hlen, hrows⟩ := h
  unfold cellAt jsIdx
  rw [if_pos hr.1]
  have hltr : r.toNat < g.length := by omega
  cases hrowArr : g[r.toNat]? with
  | none => exact absurd hrowArr (by simp [List.getElem?_eq_none_iff]; omega)
  | some rowArr =>
    simp only []
    rw [if_pos hc.1]
    have hmem : rowArr ∈ g := List.getElem?_mem hrowArr
    have hlenr : rowArr.length = 16 := hrows rowArr hmem
    have hltc : c.toNat < rowArr.length := by omega
    cases hcell : rowArr[c.toNat]? with
    | none => exact absurd hcell (by simp [List.getElem?_eq_none_iff]; omega)
    | some cell => exact ⟨cell, rfl⟩

/-- C1: For every piece type and every enterDir, the connectivity function
`getNextState` realizes exactly the spec's transition table (straights,
curves, crossings and tunnels as listed in §4.2, every other pair yielding
no transition), the returned next cell is the current cell offset by the
exit direction (UP = row-1, DOWN = row+1, LEFT = col-1, RIGHT = col+1),
and the next cell's enterDir equals the exitDir. -/
theorem getNextState_realizes_spec_table (row col : Int) (t : TrackType)
    (d : Dir) :
    getNextState row col d t =
      (exitForSpecTable t d).map fun e =>
        ⟨row + (cellOffsetForSpec e).1, col + (cellOffsetForSpec e).2, e, e⟩ := by
  cases t <;> cases d <;>
    simp [getNextState, exitForSpecTable, cellOffsetForSpec,
      NextState.mk.injEq] <;> omega

/-- C3: round-trip closure of the connectivity algebra.  If a piece accepts
`enterDir` and `getNextState` moves to the offset next cell with some exit
direction, then the inverse lookup `getPreviousState`, applied at that
next cell with the exit direction as its enter direction, recovers the
original cell and the original enter direction — provided the original
cell is in bounds and actually holds that piece. -/
theorem getNextState_getPreviousState_roundtrip
    (g : Grid) (row col : Int) (t : TrackType) (d : Dir) (ns : NextState)
    (cell : Cell)
    (hnext : getNextState row col d t = some ns)
    (hrow : 0 ≤ row ∧ row < GRID_SIZE)
    (hcol : 0 ≤ col ∧ col < GRID_SIZE)
    (hcell : cellAt g row col = some cell)
    (htrack : cell.isTrack = true)
    (htype : cell.trackType = some t) :
    getPreviousState g ns.row ns.col ns.nextEnterDir =
      some ⟨row, col, d, ns.exitDir⟩ := by
  have h1 : ∀ x : Int, x + 1 - 1 = x := fun x => by omega
  have h2 : ∀ x : Int, x - 1 + 1 = x := fun x => by omega
  have hGS : (GRID_SIZE : Int) = 16 := rfl
  cases t <;> cases d <;>
    simp only [getNextState, Option.some.injEq, reduceCtorEq,
      false_implies] at hnext <;>
  · subst hnext
    simp only [getPreviousState, hGS]
    rw [if_neg (by simp only [hGS] at *; omega)]
    simp only [h1, h2, hcell, htrack, htype]
    rfl


/-- Witness for the round-trip theorem: a concrete `curve-tl` piece at cell
`(1,1)`; its DOWN entry exits LEFT into `(1,0)`, and the inverse lookup
from `(1,0)` with enter direction LEFT recovers `(1,1)` entered DOWN. -/
theorem getNextState_getPreviousState_roundtrip_witness :
    getPreviousState exCurveGrid 1 0 Dir.left =
      some ⟨1, 1, Dir.down, Dir.left⟩ :=
  getNextState_getPreviousState_roundtrip exCurveGrid 1 1 .curveTL .down
    ⟨1, 0, .left, .left⟩ (plainTrackCell .curveTL 0) (by decide)
    (by decide) (by decide) (by decide) (by decide) (by decide)

/-- C6 (amended): the crossing tool's orientation inference depends only
on the north/south neighbors' vertical-axis pieces: the placed crossing is
vertical exactly when the north or south neighbor holds a `-v` piece, and
horizontal otherwise — east/west neighbors (and hence "both axes present")
are ignored.  When the tool actually places a crossing, the recorded
`horizontal` flag is exactly this inferred orientation. -/
theorem crossing_orientation_ignores_east_west :
    (∀ (g : Grid) (row col : Int),
      derivedHorizontal g row col =
        !(includesVAxis (getTrackAt g (row - 1) col) ||
          includesVAxis (getTrackAt g (row + 1) col))) ∧
    (∀ (s : SimState) (row col : Int),
      (placeCrossing s row col).crossings = s.crossings ∨
      ∃ cs1 m, (placeCrossing s row col).crossings =
        cs1 ++ [⟨row, col, m, false, derivedHorizontal s.grid row col, 0, 0⟩]) := by
  constructor
  · intro g row col
    simp only [derivedHorizontal]
    cases h1 : includesVAxis (getTrackAt g (row - 1) col) <;>
      cases h2 : includesVAxis (getTrackAt g (row + 1) col) <;>
      cases h3 : includesHAxis (getTrackAt g row (col + 1)) <;>
      cases h4 : includesHAxis (getTrackAt g row (col - 1)) <;>
      simp [h1, h2, h3, h4]
  · intro s row col
    cases hd : derivedHorizontal s.grid row col <;>
      simp only [placeCrossing, hd, Bool.false_eq_true, if_false, if_true] <;>
    · split
      · left; rfl
      · split
        · left; rfl
        · right
          exact ⟨_, _, rfl⟩

/-- C6 counterexample: with a vertical-axis track to the NORTH and a
horizontal-axis track to the EAST of the target cell `(1,1)` (both axes
present among the neighbors), the claim predicts a horizontal crossing,
but the tool places a vertical one. -/
theorem crossing_orientation_both_axes_counterexample :
    includesVAxis (getTrackAt exBothAxesState.grid 0 1) = true ∧
    includesHAxis (getTrackAt exBothAxesState.grid 1 2) = true ∧
    (placeCrossing exBothAxesState 1 1).crossings.map (fun e => e.horizontal) =
      [false] :=
  ⟨by decide, by decide, by decide⟩

/-- C7: the crossing state machine.  Occupancy holds iff some segment of
some non-stopped train sits on one of the crossing's two cells; occupancy
activates the crossing on the same tick and pins the deactivation timer at
0; vacancy while active accumulates the tick's delta and deactivates
exactly when the accumulated vacancy reaches 1.0 s (never earlier); a
vacant inactive crossing is unchanged. -/
theorem updateCrossing_state_machine (ts : List Train) (delta : ℚ)
    (c : Crossing) :
    (crossingOccupied ts c = true ↔
      ∃ t ∈ ts, t.stopped = false ∧ ∃ seg ∈ t.segments,
        ((seg.row = c.row ∧ seg.col = c.col) ∨
          (seg.row = (crossingSecondCell c).1 ∧
            seg.col = (crossingSecondCell c).2))) ∧
    (crossingOccupied ts c = true →
      (updateCrossing ts delta c).active = true ∧
      (updateCrossing ts delta c).deactivateTimer = 0) ∧
    (crossingOccupied ts c = false → c.active = true →
      if 1 ≤ c.deactivateTimer + delta then
        (updateCrossing ts delta c).active = false ∧
        (updateCrossing ts delta c).deactivateTimer = 0
      else
        (updateCrossing ts delta c).active = true ∧
        (updateCrossing ts delta c).deactivateTimer =
          c.deactivateTimer + delta) ∧
    (crossingOccupied ts c = false → c.active = false →
      updateCrossing ts delta c = c) := by
  refine ⟨?_, ?_, ?_, ?_⟩
  · unfold crossingOccupied
    simp only [List.any_eq_true, Bool.and_eq_true, Bool.not_eq_true',
      Bool.or_eq_true, decide_eq_true_eq]
  · intro h
    simp [updateCrossing, h]
  · intro h ha
    by_cases ht : 1 ≤ c.deactivateTimer + delta
    · rw [if_pos ht]
      simp [updateCrossing, h, ha, ht]
    · rw [if_neg ht]
      simp [updateCrossing, h, ha, ht]
  · intro h ha
    simp [updateCrossing, h, ha]

/-- Witness for the crossing state machine theorem: an active crossing
with 0.25 s of accumulated vacancy, no trains, and a 0.5 s tick stays
active with 0.75 s accumulated (below the 1.0 s threshold). -/
theorem updateCrossing_state_machine_witness :
    (updateCrossing [] (mkRat 1 2) cWitnessCrossing).active = true ∧
    (updateCrossing [] (mkRat 1 2) cWitnessCrossing).deactivateTimer =
      mkRat 3 4 := by
  have h :=
    (updateCrossing_state_machine [] (mkRat 1 2) cWitnessCrossing).2.2.1
      (by decide) (by decide)
  rw [if_neg (by norm_num [cWitnessCrossing, Rat.mkRat_eq_div])] at h
  refine ⟨h.1, ?_⟩
  rw [h.2]
  norm_num [cWitnessCrossing, Rat.mkRat_eq_div]

/-! ## Backward-walk evaluation lemmas (the function is defined by
well-founded recursion, so we expose its three step rules) -/

lemma backWalk_done (g : Grid) (p : ℚ) (row col : Int) (e d : Dir)
    (h : ¬p < 0) : backWalk g p row col e d = .moved p row col e d := by
  rw [backWalk.eq_def, dif_neg h]

lemma backWalk_stuck (g : Grid) (p : ℚ) (row col : Int) (e d : Dir)
    (h : p < 0) (h2 : getPreviousState g row col e = none) :
    backWalk g p row col e d = .offTrack row col e d := by
  rw [backWalk.eq_def, dif_pos h, h2]

lemma backWalk_step (g : Grid) (p : ℚ) (row col : Int) (e d : Dir)
    (prev : PrevState) (h : p < 0)
    (h2 : getPreviousState g row col e = some prev) :
    backWalk g p row col e d =
      backWalk g (p + 1) prev.row prev.col prev.enterDir prev.dir := by
  rw [backWalk.eq_def, dif_pos h, h2]

/-- C4 (amended): the per-tick follower recomputation and the
car-attachment placement run the same backward walk, and compute the same
`(row, col, enterDir, dir, progress)` whenever that walk terminates on
track; but when the walk runs off the track, `addCarToTrain` clamps the
new car at `progress = 0` in the earliest reachable cell while
`followLeadSegment` returns early and leaves the follower segment
entirely unchanged. -/
theorem follower_recompute_matches_attachment
    (g : Grid) (t : Train) (lead seg : Segment) (ct : String) (idx : Nat)
    (hlast : t.segments.getLast? = some lead)
    (hlen : t.segments.length = idx) :
    (∀ p r c e d,
      backWalk g (lead.progress -
          (if idx = 1 then ENGINE_TO_CAR_SPACING else SEGMENT_SPACING) /
            CELL_SIZE) lead.row lead.col lead.enterDir lead.dir =
        .moved p r c e d →
      ∃ newSeg, (addCarToTrain g t ct).segments.getLast? = some newSeg ∧
        segMotionState (followLeadSegment g seg lead idx) =
          segMotionState newSeg) ∧
    (∀ r c e d,
      backWalk g (lead.progress -
          (if idx = 1 then ENGINE_TO_CAR_SPACING else SEGMENT_SPACING) /
            CELL_SIZE) lead.row lead.col lead.enterDir lead.dir =
        .offTrack r c e d →
      followLeadSegment g seg lead idx = seg ∧
      ∃ newSeg, (addCarToTrain g t ct).segments.getLast? = some newSeg ∧
        segMotionState newSeg = (r, c, e, d, 0)) := by
  constructor
  · intro p r c e d h
    refine ⟨⟨ct, r, c, d, e, p⟩, ?_, ?_⟩
    · simp only [addCarToTrain, hlast, hlen, h, List.getLast?_concat]
    · simp only [followLeadSegment, h]
      rfl
  · intro r c e d h
    refine ⟨?_, ⟨ct, r, c, d, e, 0⟩, ?_, ?_⟩
    · simp only [followLeadSegment, h]
    · simp only [addCarToTrain, hlast, hlen, h, List.getLast?_concat]
    · rfl

/-- C4 counterexample: a lone `straight-h` at `(0,0)` with the leader at
progress `0.3` and spacing `1.05/2`: the backward walk runs off the
track.  `followLeadSegment` leaves the (stale) follower segment entirely
unchanged at progress `0.7`, while `addCarToTrain` in the same situation
clamps the new car at `progress = 0` — so the follower recomputation does
NOT compute the car-attachment state. -/
theorem follower_offtrack_leaves_segment_unchanged :
    followLeadSegment exOneStraightGrid cStale cLead 1 = cStale ∧
    cStale.progress = mkRat 7 10 ∧
    (addCarToTrain exOneStraightGrid cTrainOne "car-passenger").segments.map
      segMotionState =
      [(0, 0, Dir.right, Dir.right, mkRat 3 10),
       (0, 0, Dir.right, Dir.right, 0)] := by
  have hbw : backWalk exOneStraightGrid
      (mkRat 3 10 - ENGINE_TO_CAR_SPACING / CELL_SIZE) 0 0 .right .right =
      .offTrack 0 0 .right .right := by
    refine backWalk_stuck _ _ _ _ _ _ ?_ (by decide)
    norm_num [ENGINE_TO_CAR_SPACING, CELL_SIZE, Rat.mkRat_eq_div]
  refine ⟨?_, by decide, ?_⟩
  · simp only [followLeadSegment, cLead, cStale, reduceIte]
    rw [hbw]
  · simp only [addCarToTrain, cTrainOne, cLead, List.getLast?_singleton,
      List.length_singleton, reduceIte]
    rw [hbw]
    simp [segMotionState, cStale]

/-- Witness for the matching case of the follower/attachment theorem: on a
two-cell `straight-h` run with the leader at `(0,1)`, the backward walk
steps into `(0,0)` and terminates, and the recomputed follower state
matches the state car-attachment would produce. -/
theorem follower_recompute_matches_attachment_witness :
    ∃ newSeg,
      (addCarToTrain exTwoStraightGrid cTrainTwo "car-caboose").segments.getLast? =
        some newSeg ∧
      segMotionState (followLeadSegment exTwoStraightGrid cStale cLead2 1) =
        segMotionState newSeg := by
  have hprev : getPreviousState exTwoStraightGrid 0 1 .right =
      some ⟨0, 0, .right, .right⟩ := by decide
  have hlt : (mkRat 3 10 - ENGINE_TO_CAR_SPACING / CELL_SIZE : ℚ) < 0 := by
    norm_num [ENGINE_TO_CAR_SPACING, CELL_SIZE, Rat.mkRat_eq_div]
  have hbw : backWalk exTwoStraightGrid
      (cLead2.progress -
        (if 1 = 1 then ENGINE_TO_CAR_SPACING else SEGMENT_SPACING) /
          CELL_SIZE) cLead2.row cLead2.col cLead2.enterDir cLead2.dir =
      .moved (mkRat 3 10 - ENGINE_TO_CAR_SPACING / CELL_SIZE + 1) 0 0
        .right .right := by
    have h1 : backWalk exTwoStraightGrid
        (mkRat 3 10 - ENGINE_TO_CAR_SPACING / CELL_SIZE) 0 1 .right .right =
        backWalk exTwoStraightGrid
          (mkRat 3 10 - ENGINE_TO_CAR_SPACING / CELL_SIZE + 1) 0 0
          .right .right :=
      backWalk_step _ _ _ _ _ _ _ hlt hprev
    have h2 : backWalk exTwoStraightGrid
        (mkRat 3 10 - ENGINE_TO_CAR_SPACING / CELL_SIZE + 1) 0 0
          .right .right =
        .moved (mkRat 3 10 - ENGINE_TO_CAR_SPACING / CELL_SIZE + 1) 0 0
          .right .right := by
      refine backWalk_done _ _ _ _ _ _ ?_
      norm_num [ENGINE_TO_CAR_SPACING, CELL_SIZE, Rat.mkRat_eq_div]
    simpa [cLead2] using h1.trans h2
  exact (follower_recompute_matches_attachment exTwoStraightGrid cTrainTwo
    cLead2 cStale "car-caboose" 1 (by decide) (by decide)).1 _ _ _ _ _ hbw

/-- C5: the Grid Store's bounds-checked query `getTrackAt` returns the
no-track sentinel (`null`) for every out-of-bounds coordinate without
throwing.  But the motion step does not share this safety:
`moveSegmentToNextCell` indexes `grid[next.row][next.col]` directly, so
when a running engine's transition targets a cell beyond the top edge
(`row = -1`, here from the `straight-v` at `(0,0)` travelling UP) the
tick throws a TypeError (`Except.error`) instead of stopping the train.
A transition beyond the right edge (`col = 16`) is caught by the
`!nextCell` test and stops the train as the claim describes. -/
theorem getTrackAt_oob_sentinel_and_motion_row_throw :
    (∀ (g : Grid) (row col : Int),
      row < 0 ∨ GRID_SIZE ≤ row ∨ col < 0 ∨ GRID_SIZE ≤ col →
      getTrackAt g row col = none) ∧
    moveSegmentToNextCell exTopStraightVGrid segTopV = Except.error () ∧
    moveSegmentToNextCell exRightEdgeGrid segRightEdge =
      Except.ok ({ segRightEdge with progress := 1 }, true) := by
  refine ⟨?_, rfl, rfl⟩
  intro g row col h
  unfold getTrackAt
  rw [if_pos h]

/-- Witness for the out-of-bounds sentinel: `getTrackAt` at `row = -1`
returns `null` even on the initial grid. -/
theorem getTrackAt_oob_sentinel_witness :
    getTrackAt initGrid (-1) 0 = none :=
  getTrackAt_oob_sentinel_and_motion_row_throw.1 initGrid (-1) 0
    (by norm_num)

/-- C2 (code-bug evidence): on the reachable layout of `exClimbState`
(straight-h at `(1,0)`, curve-tl at `(1,1)`, straight-v at `(0,1)`), the
engine placed at `(1,0)` (speed 1.5 cells/s) is ticked with `Δt = 2/3 s`,
so each tick completes one cell.  Two ticks take it to `(0,1)` travelling
UP; the third tick's transition targets `row = -1`, where the claim says
the train must stop with `progress = 1`, but `stepTrains` instead throws
a TypeError (reading `grid[-1][1]`). -/
theorem stepTrain_throws_at_top_edge :
    exClimbState.trains = [climbTrain] ∧
    stepTrain exClimbState.grid climbTrain (mkRat 2 3) =
      Except.ok climbTrainA ∧
    stepTrain exClimbState.grid climbTrainA (mkRat 2 3) =
      Except.ok climbTrainB ∧
    stepTrain exClimbState.grid climbTrainB (mkRat 2 3) =
      Except.error () := by
  have harith : (1 : ℚ) ≤ mkRat 6 6 := by
    norm_num [Rat.mkRat_eq_div]
  refine ⟨by decide, ?_, ?_, ?_⟩
  · have hcell : gridGetJs exClimbState.grid 1 0 =
        Except.ok (some (plainTrackCell .straightH 0)) := rfl
    have hmove : moveSegmentToNextCell exClimbState.grid
        ⟨"engine-steam", 1, 0, .right, .right, 0⟩ =
        Except.ok (⟨"engine-steam", 1, 1, .right, .right, 0⟩, false) := rfl
    simp [stepTrain, climbTrain, climbTrainA, hcell, hmove, harith,
      plainTrackCell, stepCars]
  · have hcell : gridGetJs exClimbState.grid 1 1 =
        Except.ok (some (plainTrackCell .curveTL 1)) := rfl
    have hmove : moveSegmentToNextCell exClimbState.grid
        ⟨"engine-steam", 1, 1, .right, .right, 0⟩ =
        Except.ok (⟨"engine-steam", 0, 1, .up, .up, 0⟩, false) := rfl
    simp [stepTrain, climbTrainA, climbTrainB, hcell, hmove, harith,
      plainTrackCell, stepCars]
  · have hcell : gridGetJs exClimbState.grid 0 1 =
        Except.ok (some (plainTrackCell .straightV 2)) := rfl
    have hmove : moveSegmentToNextCell exClimbState.grid
        ⟨"engine-steam", 0, 1, .up, .up, 0⟩ = Except.error () := rfl
    simp [stepTrain, climbTrainB, hcell, hmove, harith, plainTrackCell,
      stepCars]

/-- C10: applying the curve tool to a cell holding any non-curve track
piece overwrites that single cell with `curve-tl`: the target cell
becomes a plain `curve-tl` track cell, every other cell is untouched, and
the crossings (and trains) lists are untouched — in particular, applied
to one cell of a two-cell crossing it replaces only that cell, leaving
the other crossing cell's record and the Crossing entity in place. -/
theorem curve_tool_overwrites_single_cell
    (s : SimState) (row col : Int) (cell : Cell)
    (hcell : cellAt s.grid row col = some cell)
    (htrack : cell.isTrack = true)
    (hncurve : startsWithCurve cell.trackType = false) :
    cellAt (placeTrackSmart s row col "curve").grid row col =
      some (plainTrackCell .curveTL s.nextMeshId) ∧
    (∀ r2 c2 : Int, ¬(r2 = row ∧ c2 = col) →
      cellAt (placeTrackSmart s row col "curve").grid r2 c2 =
        cellAt s.grid r2 c2) ∧
    (placeTrackSmart s row col "curve").crossings = s.crossings ∧
    (placeTrackSmart s row col "curve").trains = s.trains := by
  have hps : placeTrackSmart s row col "curve" =
      placeTrackPiece s row col .curveTL := by
    unfold placeTrackSmart
    rw [hcell]
    simp only [htrack, hncurve, Bool.and_false, reduceIte]
    rw [if_neg (by decide), if_neg (by decide)]
  rw [hps]
  exact ⟨cellAt_setCell_self _ _ _ _ _ hcell,
    fun r2 c2 h => cellAt_setCell_ne _ _ _ _ _ _ h, rfl, rfl⟩

/-- Witness for the curve-tool theorem: applied to the start cell `(2,2)`
of the horizontal crossing of `exCrossingState`, the cell becomes
`curve-tl` while the end cell `(2,3)` and the Crossing entity stay in
place. -/
theorem curve_tool_overwrites_single_cell_witness :
    cellAt (placeTrackSmart exCrossingState 2 2 "curve").grid 2 2 =
      some (plainTrackCell .curveTL exCrossingState.nextMeshId) ∧
    cellAt (placeTrackSmart exCrossingState 2 2 "curve").grid 2 3 =
      cellAt exCrossingState.grid 2 3 ∧
    (placeTrackSmart exCrossingState 2 2 "curve").crossings =
      exCrossingState.crossings := by
  have h := curve_tool_overwrites_single_cell exCrossingState 2 2
    ⟨true, some .crossingH, some 0, true, false, some 2, some 2⟩
    (by decide) (by decide) (by decide)
  exact ⟨h.1, h.2.1 2 3 (by decide), h.2.2.1⟩

/-- The end cell of a crossing differs from its start cell. -/
lemma delEnd_ne_start (cell : Cell) (sr sc : Int) :
    ¬(delEndRow cell sr = sr ∧ delEndCol cell sc = sc) := by
  unfold delEndRow delEndCol
  by_cases h : cell.trackType = some .crossingH
  · simp [h]
  · simp [h]

/-- The start cell of a crossing differs from its end cell. -/
lemma start_ne_delEnd (cell : Cell) (sr sc : Int) :
    ¬(sr = delEndRow cell sr ∧ sc = delEndCol cell sc) := by
  unfold delEndRow delEndCol
  by_cases h : cell.trackType = some .crossingH
  · simp [h]
  · simp [h]

/-- C8: the delete tool.  On a cell holding a crossing piece it clears
both of that crossing's cells to empty, removes the Crossing entity (the
first list entry matching the crossing's start cell and mesh), touches no
other cell, and removes exactly the trains whose engine segment occupies
one of the two cleared cells.  On any other track cell it clears exactly
that one cell, leaves the crossing list untouched, and removes exactly
the trains whose engine occupies the cleared cell. -/
theorem deleteTrack_cascade
    (s : SimState) (row col : Int) (cell : Cell)
    (hcell : cellAt s.grid row col = some cell)
    (htrack : cell.isTrack = true) :
    (∀ sr sc i,
      startsWithCrossing cell.trackType = true →
      cell.crossingRow = some sr → cell.crossingCol = some sc →
      delEndRow cell sr < GRID_SIZE → delEndCol cell sc < GRID_SIZE →
      (cellAt s.grid sr sc).isSome = true →
      (cellAt s.grid (delEndRow cell sr) (delEndCol cell sc)).isSome = true →
      s.crossings.findIdx? (fun cr =>
        decide (cr.row = sr) && decide (cr.col = sc) &&
        decide (some cr.meshId = cell.meshId)) = some i →
      cellAt (deleteTrack s row col).grid sr sc = some emptyCell ∧
      cellAt (deleteTrack s row col).grid (delEndRow cell sr)
        (delEndCol cell sc) = some emptyCell ∧
      (∀ r2 c2 : Int, ¬(r2 = sr ∧ c2 = sc) →
        ¬(r2 = delEndRow cell sr ∧ c2 = delEndCol cell sc) →
        cellAt (deleteTrack s row col).grid r2 c2 = cellAt s.grid r2 c2) ∧
      (deleteTrack s row col).crossings = s.crossings.eraseIdx i ∧
      (∀ t ∈ s.trains, ∀ e0, jsSeg0 t = some e0 →
        (((e0.row = sr ∧ e0.col = sc) ∨
            (e0.row = delEndRow cell sr ∧ e0.col = delEndCol cell sc)) →
          t ∉ (deleteTrack s row col).trains) ∧
        (¬((e0.row = sr ∧ e0.col = sc) ∨
            (e0.row = delEndRow cell sr ∧ e0.col = delEndCol cell sc)) →
          t ∈ (deleteTrack s row col).trains))) ∧
    (startsWithCrossing cell.trackType = false →
      cellAt (deleteTrack s row col).grid row col = some emptyCell ∧
      (∀ r2 c2 : Int, ¬(r2 = row ∧ c2 = col) →
        cellAt (deleteTrack s row col).grid r2 c2 = cellAt s.grid r2 c2) ∧
      (deleteTrack s row col).crossings = s.crossings ∧
      (∀ t ∈ s.trains, ∀ e0, jsSeg0 t = some e0 →
        ((e0.row = row ∧ e0.col = col) →
          t ∉ (deleteTrack s row col).trains) ∧
        (¬(e0.row = row ∧ e0.col = col) →
          t ∈ (deleteTrack s row col).trains))) := by
  constructor
  · intro sr sc i hx hsr hsc her hec hsSome heSome hidx
    have hred : deleteTrack s row col =
        { s with
          grid := setCell (setCell s.grid sr sc emptyCell)
            (delEndRow cell sr) (delEndCol cell sc) emptyCell
          crossings := s.crossings.eraseIdx i
          trains := s.trains.filter fun t =>
            match jsSeg0 t with
            | some e =>
              !((decide (e.row = sr) && decide (e.col = sc)) ||
                (decide (e.row = delEndRow cell sr) &&
                  decide (e.col = delEndCol cell sc)))
            | none => true } := by
      unfold deleteTrack
      rw [hcell]
      simp only [htrack, hx, reduceIte, hsr, hsc, Option.getD_some, hidx,
        delEndRow, delEndCol]
      rw [if_pos ⟨by simpa [delEndRow] using her, by simpa [delEndCol] using hec⟩]
    have hg : (deleteTrack s row col).grid =
        setCell (setCell s.grid sr sc emptyCell)
          (delEndRow cell sr) (delEndCol cell sc) emptyCell := by rw [hred]
    have hcs : (deleteTrack s row col).crossings = s.crossings.eraseIdx i := by
      rw [hred]
    have htr : (deleteTrack s row col).trains =
        s.trains.filter fun t =>
          match jsSeg0 t with
          | some e =>
            !((decide (e.row = sr) && decide (e.col = sc)) ||
              (decide (e.row = delEndRow cell sr) &&
                decide (e.col = delEndCol cell sc)))
          | none => true := by rw [hred]
    refine ⟨?_, ?_, ?_, hcs, ?_⟩
    · rw [hg, cellAt_setCell_ne _ _ _ _ _ _ (start_ne_delEnd cell sr sc)]
      obtain ⟨c0, hc0⟩ := Option.isSome_iff_exists.mp hsSome
      exact cellAt_setCell_self _ _ _ _ _ hc0
    · rw [hg]
      have h1 : cellAt (setCell s.grid sr sc emptyCell)
          (delEndRow cell sr) (delEndCol cell sc) =
          cellAt s.grid (delEndRow cell sr) (delEndCol cell sc) :=
        cellAt_setCell_ne _ _ _ _ _ _ (delEnd_ne_start cell sr sc)
      obtain ⟨c0, hc0⟩ := Option.isSome_iff_exists.mp heSome
      exact cellAt_setCell_self _ _ _ _ _ (h1.trans hc0)
    · intro r2 c2 hn1 hn2
      rw [hg, cellAt_setCell_ne _ _ _ _ _ _ hn2,
        cellAt_setCell_ne _ _ _ _ _ _ hn1]
    · intro t ht e0 he0
      rw [htr]
      constructor
      · intro hor hmem
        have hp := (List.mem_filter.mp hmem).2
        rw [he0] at hp
        simp only [Bool.not_eq_true', Bool.or_eq_false_iff,
          Bool.and_eq_false_iff, decide_eq_false_iff_not] at hp
        rcases hor with ⟨h1, h2⟩ | ⟨h1, h2⟩ <;> tauto
      · intro hnor
        refine List.mem_filter.mpr ⟨ht, ?_⟩
        rw [he0]
        simp only [Bool.not_eq_true', Bool.or_eq_false_iff,
          Bool.and_eq_false_iff, decide_eq_false_iff_not]
        tauto
  · intro hx
    have hred : deleteTrack s row col =
        { s with
          grid := setCell s.grid row col emptyCell
          trains := s.trains.filter fun t =>
            match jsSeg0 t with
            | some e => !(decide (e.row = row) && decide (e.col = col))
            | none => true } := by
      unfold deleteTrack
      rw [hcell]
      simp only [htrack, hx, reduceIte]
      rw [if_neg (by decide)]
    have hg : (deleteTrack s row col).grid = setCell s.grid row col emptyCell := by
      rw [hred]
    have hcs : (deleteTrack s row col).crossings = s.crossings := by rw [hred]
    have htr : (deleteTrack s row col).trains =
        s.trains.filter fun t =>
          match jsSeg0 t with
          | some e => !(decide (e.row = row) && decide (e.col = col))
          | none => true := by rw [hred]
    refine ⟨?_, ?_, hcs, ?_⟩
    · rw [hg]
      exact cellAt_setCell_self _ _ _ _ _ hcell
    · intro r2 c2 hn
      rw [hg]
      exact cellAt_setCell_ne _ _ _ _ _ _ hn
    · intro t ht e0 he0
      rw [htr]
      constructor
      · intro hand hmem
        have hp := (List.mem_filter.mp hmem).2
        rw [he0] at hp
        simp only [Bool.not_eq_true', Bool.and_eq_false_iff,
          decide_eq_false_iff_not] at hp
        tauto
      · intro hnand
        refine List.mem_filter.mpr ⟨ht, ?_⟩
        rw [he0]
        simp only [Bool.not_eq_true', Bool.and_eq_false_iff,
          decide_eq_false_iff_not]
        tauto

/-- Witness for the delete-tool theorem: deleting the END cell `(2,3)` of
the crossing of `exCrossTrainState` clears both `(2,2)` and `(2,3)`,
removes the Crossing entity, and removes the train whose engine sits on
`(2,2)`. -/
theorem deleteTrack_cascade_witness :
    cellAt (deleteTrack exCrossTrainState 2 3).grid 2 2 = some emptyCell ∧
    cellAt (deleteTrack exCrossTrainState 2 3).grid 2 3 = some emptyCell ∧
    (deleteTrack exCrossTrainState 2 3).crossings = [] ∧
    (deleteTrack exCrossTrainState 2 3).trains = [] := by
  have h := (deleteTrack_cascade exCrossTrainState 2 3
      ⟨true, some .crossingH, some 0, false, true, some 2, some 2⟩
      (by decide) (by decide)).1 2 2 0
      (by decide) (by decide) (by decide) (by decide) (by decide)
      (by decide) (by decide) (by decide)
  refine ⟨h.1, ?_, ?_, ?_⟩
  · have := h.2.1
    simpa [delEndRow, delEndCol] using this
  · simpa using h.2.2.2.1
  · decide

/-- C9 counterexample: a reachable state (four user taps: place straight,
toggle it vertical, place a crossing below it — vertical because of that
neighbor — then delete the straight).  The document records the crossing
as vertical (`horizontal = false`), but loading the exported document
re-derives the orientation from the now-missing neighbors and recreates
it horizontal — and the original crossing cell `(2,0)` comes back
empty. -/
theorem layout_roundtrip_orientation_counterexample :
    (exportLayout exRoundTripState).crossings = [⟨1, 0, false⟩] ∧
    (loadLayout exRoundTripState
        (exportLayout exRoundTripState)).crossings.map projCrossing =
      [⟨1, 0, true⟩] ∧
    cellTrackType exRoundTripState 2 0 = some .crossingV ∧
    cellTrackType (loadLayout exRoundTripState
      (exportLayout exRoundTripState)) 2 0 = none :=
  ⟨by decide, by decide, by decide, by decide⟩

/-! ## Serialization lemmas -/

lemma intRange16_eq :
    intRange16 = [0, 1, 2, 3, 4, 5, 6, 7, 8, 9, 10, 11, 12, 13, 14, 15] := by
  decide

lemma mem_intRange16 (r : Int) : r ∈ intRange16 ↔ 0 ≤ r ∧ r < 16 := by
  rw [intRange16_eq]
  simp only [List.mem_cons, List.not_mem_nil, or_false]
  constructor
  · rintro (rfl | rfl | rfl | rfl | rfl | rfl | rfl | rfl | rfl | rfl | rfl |
      rfl | rfl | rfl | rfl | rfl) <;> norm_num
  · intro ⟨h0, h16⟩
    interval_cases r <;> simp

/-- Membership in the exported `tracks` array characterizes exactly the
in-bounds track cells that are not crossing end cells. -/
lemma export_tracks_mem (s : SimState) (tr : LayoutTrack) :
    tr ∈ (exportLayout s).tracks ↔
      (0 ≤ tr.row ∧ tr.row < 16 ∧ 0 ≤ tr.col ∧ tr.col < 16) ∧
      ∃ cell, cellAt s.grid tr.row tr.col = some cell ∧
        cell.isTrack = true ∧ cell.isCrossingEnd = false ∧
        cell.trackType = some tr.trackType := by
  unfold exportLayout
  simp only [List.mem_flatMap, List.mem_filterMap, mem_intRange16]
  constructor
  · rintro ⟨r, hr, c, hc, hbody⟩
    split at hbody
    · rename_i cell hcell
      split at hbody
      · rename_i tt htt
        split at hbody
        · rename_i hcond
          cases hbody
          simp only [Bool.and_eq_true, Bool.not_eq_true'] at hcond
          exact ⟨⟨hr.1, hr.2, hc.1, hc.2⟩,
            cell, hcell, hcond.1, hcond.2, htt⟩
        · exact absurd hbody (by simp)
      · exact absurd hbody (by simp)
    · exact absurd hbody (by simp)
  · rintro ⟨⟨hr0, hr16, hc0, hc16⟩, cell, hcell, htrack, hend, htt⟩
    refine ⟨tr.row, ⟨hr0, hr16⟩, tr.col, ⟨hc0, hc16⟩, ?_⟩
    simp only [hcell, htt, htrack, hend, Bool.not_false, Bool.and_self,
      if_pos]

/-- The exported `crossings` array is the projection of the crossing
list. -/
lemma export_crossings (s : SimState) :
    (exportLayout s).crossings = s.crossings.map projCrossing := rfl

/-- `crossingCellsOf` collects exactly the footprints of the document's
crossings. -/
lemma mem_crossingCellsOf (l : Layout) (p : Int × Int) :
    p ∈ crossingCellsOf l ↔ ∃ cr ∈ l.crossings, p ∈ lcFootprint cr := by
  unfold crossingCellsOf lcFootprint lcSecond
  simp only [List.mem_flatMap, List.mem_cons, List.mem_singleton]
  constructor
  · rintro ⟨cr, hcr, hp⟩
    refine ⟨cr, hcr, ?_⟩
    cases h : cr.horizontal <;> simp [h] at hp ⊢ <;> tauto
  · rintro ⟨cr, hcr, hp⟩
    refine ⟨cr, hcr, ?_⟩
    cases h : cr.horizontal <;> simp [h] at hp ⊢ <;> tauto

/-- The second cell of a crossing entity's footprint, seen through the
document projection. -/
lemma lcSecond_projCrossing (e : Crossing) :
    lcSecond (projCrossing e) = crossingSecondCell e := rfl

/-- The footprint of a crossing entity, seen through the document
projection. -/
lemma lcFootprint_projCrossing (e : Crossing) :
    lcFootprint (projCrossing e) = crossFootprint e := rfl

lemma lcSecond_ne_start (cr : LayoutCrossing) :
    ¬(cr.row = (lcSecond cr).1 ∧ cr.col = (lcSecond cr).2) := by
  unfold lcSecond
  cases h : cr.horizontal <;> simp [h]

lemma start_ne_lcSecond (cr : LayoutCrossing) :
    ¬((lcSecond cr).1 = cr.row ∧ (lcSecond cr).2 = cr.col) := by
  unfold lcSecond
  cases h : cr.horizontal <;> simp [h]

/-! ## Track-loading phase lemmas -/

lemma trackFold_crossings_trains (skip : List (Int × Int))
    (trs : List LayoutTrack) (st : SimState) :
    (trs.foldl (fun st tr =>
      if (tr.row, tr.col) ∈ skip then st
      else placeTrackPiece st tr.row tr.col tr.trackType) st).crossings =
        st.crossings ∧
    (trs.foldl (fun st tr =>
      if (tr.row, tr.col) ∈ skip then st
      else placeTrackPiece st tr.row tr.col tr.trackType) st).trains =
        st.trains := by
  induction trs generalizing st with
  | nil => exact ⟨rfl, rfl⟩
  | cons tr rest ih =>
    simp only [List.foldl_cons]
    refine ⟨?_, ?_⟩ <;>
    · rcases ih (if (tr.row, tr.col) ∈ skip then st
        else placeTrackPiece st tr.row tr.col tr.trackType) with ⟨h1, h2⟩
      first
        | exact h1.trans (by split <;> rfl)
        | exact h2.trans (by split <;> rfl)

lemma trackFold_dims (skip : List (Int × Int)) (trs : List LayoutTrack)
    (st : SimState) (h : gridDims st.grid) :
    gridDims (trs.foldl (fun st tr =>
      if (tr.row, tr.col) ∈ skip then st
      else placeTrackPiece st tr.row tr.col tr.trackType) st).grid := by
  induction trs generalizing st with
  | nil => exact h
  | cons tr rest ih =>
    simp only [List.foldl_cons]
    refine ih _ ?_
    split
    · exact h
    · exact gridDims_setCell _ _ _ _ h

lemma trackFold_no_hit (skip : List (Int × Int)) (trs : List LayoutTrack)
    (st : SimState) (r c : Int)
    (h : ∀ tr ∈ trs, (tr.row, tr.col) ∈ skip ∨ ¬(tr.row = r ∧ tr.col = c)) :
    cellAt (trs.foldl (fun st tr =>
      if (tr.row, tr.col) ∈ skip then st
      else placeTrackPiece st tr.row tr.col tr.trackType) st).grid r c =
      cellAt st.grid r c := by
  induction trs generalizing st with
  | nil => rfl
  | cons tr rest ih =>
    simp only [List.foldl_cons]
    rw [ih _ (fun tr2 h2 => h tr2 (List.mem_cons_of_mem _ h2))]
    rcases h tr (List.mem_cons_self _ _) with hskip | hne
    · rw [if_pos hskip]
    · by_cases hsk : (tr.row, tr.col) ∈ skip
      · rw [if_pos hsk]
      · rw [if_neg hsk]
        exact cellAt_setCell_ne _ _ _ _ _ _
          (fun hp => hne ⟨hp.1.symm, hp.2.symm⟩)

lemma trackFold_hit (skip : List (Int × Int)) (trs : List LayoutTrack)
    (st : SimState) (r c : Int)
    (hdims : gridDims st.grid)
    (hr : 0 ≤ r ∧ r < 16) (hc : 0 ≤ c ∧ c < 16)
    (h : ∃ tr ∈ trs, (tr.row, tr.col) ∉ skip ∧ tr.row = r ∧ tr.col = c) :
    ∃ m tt, cellAt (trs.foldl (fun st tr =>
        if (tr.row, tr.col) ∈ skip then st
        else placeTrackPiece st tr.row tr.col tr.trackType) st).grid r c =
      some (plainTrackCell tt m) ∧
      ∃ tr ∈ trs, (tr.row, tr.col) ∉ skip ∧ tr.row = r ∧ tr.col = c ∧
        tr.trackType = tt := by
  induction trs generalizing st with
  | nil => rcases h with ⟨tr, htr, _⟩; cases htr
  | cons tr rest ih =>
    simp only [List.foldl_cons]
    by_cases hhit : (tr.row, tr.col) ∉ skip ∧ tr.row = r ∧ tr.col = c
    · -- the head writes (r, c)
      obtain ⟨hskip, hrow, hcol⟩ := hhit
      by_cases hrest : ∃ tr2 ∈ rest, (tr2.row, tr2.col) ∉ skip ∧
          tr2.row = r ∧ tr2.col = c
      · have hdims2 : gridDims (if (tr.row, tr.col) ∈ skip then st
            else placeTrackPiece st tr.row tr.col tr.trackType).grid := by
          split
          · exact hdims
          · exact gridDims_setCell _ _ _ _ hdims
        obtain ⟨m, tt, hcell, tr2, htr2, h1, h2, h3, h4⟩ := ih _ hdims2 hrest
        exact ⟨m, tt, hcell, tr2, List.mem_cons_of_mem _ htr2, h1, h2, h3, h4⟩
      · -- no later entry touches (r, c): the head's write survives
        rw [trackFold_no_hit skip rest _ r c ?_]
        · rw [if_neg hskip]
          subst hrow hcol
          obtain ⟨cell0, hcell0⟩ :=
            cellAt_some_of_dims st.grid tr.row tr.col hdims hr hc
          refine ⟨st.nextMeshId, tr.trackType, ?_,
            tr, List.mem_cons_self _ _, hskip, rfl, rfl, rfl⟩
          exact cellAt_setCell_self _ _ _ _ _ hcell0
        · intro tr2 htr2
          by_cases hsk : (tr2.row, tr2.col) ∈ skip
          · exact Or.inl hsk
          · refine Or.inr fun hc2 => hrest ⟨tr2, htr2, hsk, hc2.1, hc2.2⟩
    · -- the head does not write (r, c)
      rcases h with ⟨tr3, htr3, h3⟩
      rcases List.mem_cons.mp htr3 with rfl | htr3'
      · exact absurd h3 hhit
      · have hdims2 : gridDims (if (tr.row, tr.col) ∈ skip then st
            else placeTrackPiece st tr.row tr.col tr.trackType).grid := by
          split
          · exact hdims
          · exact gridDims_setCell _ _ _ _ hdims
        obtain ⟨m, tt, hcell, tr2, htr2, h1, h2, h3', h4⟩ := ih _ hdims2
          ⟨tr3, htr3', h3⟩
        exact ⟨m, tt, hcell, tr2, List.mem_cons_of_mem _ htr2, h1, h2, h3', h4⟩

/-! ## Crossing-loading phase lemmas -/

/-- When the orientation inference yields `h`, the second cell is free
and in bounds, and both target cells are empty, `placeCrossing` succeeds
and its effect is exactly: mark the two cells and push the entity. -/
lemma placeCrossing_success (st : SimState) (row col : Int) (h : Bool)
    (hor : derivedHorizontal st.grid row col = h)
    (hb : (lcSecond ⟨row, col, h⟩).1 < GRID_SIZE ∧
      (lcSecond ⟨row, col, h⟩).2 < GRID_SIZE)
    (hcur : cellAt st.grid row col = some emptyCell)
    (hnext : cellAt st.grid (lcSecond ⟨row, col, h⟩).1
      (lcSecond ⟨row, col, h⟩).2 = some emptyCell) :
    placeCrossing st row col =
      { grid := setCell
          (setCell st.grid row col
            ⟨true, some (if h then .crossingH else .crossingV),
              some st.nextMeshId, true, false, some row, some col⟩)
          (lcSecond ⟨row, col, h⟩).1 (lcSecond ⟨row, col, h⟩).2
          ⟨true, some (if h then .crossingH else .crossingV),
            some st.nextMeshId, false, true, some row, some col⟩
        crossings := st.crossings ++ [⟨row, col, st.nextMeshId, false, h, 0, 0⟩]
        trains := st.trains
        nextMeshId := st.nextMeshId + 1 } := by
  have hGS : (GRID_SIZE : Int) = 16 := rfl
  cases h with
  | true =>
    simp only [lcSecond, if_true, reduceIte] at hb hnext ⊢
    unfold placeCrossing
    rw [hor]
    simp only [if_true, reduceIte]
    rw [if_neg (by rw [hGS] at hb ⊢; omega)]
    rw [hnext, hcur]
    simp only [emptyCell, startsWithCrossing, Option.isSome_none,
      Bool.false_eq_true, if_false, reduceIte]
  | false =>
    simp only [lcSecond, Bool.false_eq_true, if_false, reduceIte] at hb hnext ⊢
    unfold placeCrossing
    rw [hor]
    simp only [Bool.false_eq_true, if_false, reduceIte]
    rw [if_neg (by rw [hGS] at hb ⊢; omega)]
    rw [hnext, hcur]
    simp only [emptyCell, startsWithCrossing, Option.isSome_none,
      Bool.false_eq_true, if_false, reduceIte]

/-- Characterization of the crossing-loading fold: under disjoint,
in-bounds, initially-empty footprints and orientation agreement, the fold
pushes exactly the document's crossings (projected), marks exactly the
footprint cells with the matching crossing type, and leaves every other
cell and the train list untouched. -/
lemma crossFold_spec (crs : List LayoutCrossing) (st : SimState)
    (hdims : gridDims st.grid)
    (hfoot : ∀ cr ∈ crs,
      ((lcSecond cr).1 < GRID_SIZE ∧ (lcSecond cr).2 < GRID_SIZE) ∧
      ∀ p ∈ lcFootprint cr, cellAt st.grid p.1 p.2 = some emptyCell)
    (hdisj : crs.Pairwise fun c1 c2 =>
      ∀ p ∈ lcFootprint c1, p ∉ lcFootprint c2)
    (hagree : agreeFromB st crs = true) :
    gridDims (crs.foldl (fun st cr => placeCrossing st cr.row cr.col)
      st).grid ∧
    (crs.foldl (fun st cr => placeCrossing st cr.row cr.col)
      st).crossings.map projCrossing = st.crossings.map projCrossing ++ crs ∧
    (crs.foldl (fun st cr => placeCrossing st cr.row cr.col) st).trains =
      st.trains ∧
    (∀ r c : Int, (∀ cr ∈ crs, (r, c) ∉ lcFootprint cr) →
      cellAt (crs.foldl (fun st cr => placeCrossing st cr.row cr.col)
        st).grid r c = cellAt st.grid r c) ∧
    (∀ cr ∈ crs, ∀ p ∈ lcFootprint cr,
      ∃ cell, cellAt (crs.foldl (fun st cr => placeCrossing st cr.row cr.col)
          st).grid p.1 p.2 = some cell ∧
        cell.isTrack = true ∧
        cell.trackType =
          some (if cr.horizontal then .crossingH else .crossingV)) := by
  induction crs generalizing st with
  | nil =>
    exact ⟨hdims, by simp, rfl, fun r c _ => rfl, by simp⟩
  | cons cr rest ih =>
    obtain ⟨hb, hemp⟩ := hfoot cr (List.mem_cons_self _ _)
    have hfoot_rest := fun cr2 h2 => hfoot cr2 (List.mem_cons_of_mem _ h2)
    have hdisj_head := (List.pairwise_cons.mp hdisj).1
    have hdisj_rest := (List.pairwise_cons.mp hdisj).2
    rw [agreeFromB, Bool.and_eq_true, beq_iff_eq] at hagree
    obtain ⟨hor, hagree1⟩ := hagree
    have hcur : cellAt st.grid cr.row cr.col = some emptyCell :=
      hemp (cr.row, cr.col) (List.mem_cons_self _ _)
    have hnext : cellAt st.grid (lcSecond cr).1 (lcSecond cr).2 =
        some emptyCell :=
      hemp (lcSecond cr) (by simp [lcFootprint])
    have hsucc := placeCrossing_success st cr.row cr.col cr.horizontal hor hb
      hcur hnext
    simp only [List.foldl_cons]
    rw [hsucc]
    set startCell : Cell :=
      ⟨true, some (if cr.horizontal then .crossingH else .crossingV),
        some st.nextMeshId, true, false, some cr.row, some cr.col⟩ with hsc
    set endCell : Cell :=
      ⟨true, some (if cr.horizontal then .crossingH else .crossingV),
        some st.nextMeshId, false, true, some cr.row, some cr.col⟩ with hec
    set st1 : SimState :=
      { grid := setCell (setCell st.grid cr.row cr.col startCell)
          (lcSecond cr).1 (lcSecond cr).2 endCell
        crossings := st.crossings ++
          [⟨cr.row, cr.col, st.nextMeshId, false, cr.horizontal, 0, 0⟩]
        trains := st.trains
        nextMeshId := st.nextMeshId + 1 } with hst1
    have hdims1 : gridDims st1.grid :=
      gridDims_setCell _ _ _ _ (gridDims_setCell _ _ _ _ hdims)
    have hst1_frame : ∀ p : Int × Int, p ∉ lcFootprint cr →
        cellAt st1.grid p.1 p.2 = cellAt st.grid p.1 p.2 := by
      intro p hp
      have hp1 : p ≠ (cr.row, cr.col) := fun he => hp (by simp [lcFootprint, he])
      have hp2 : p ≠ lcSecond cr := fun he => hp (by simp [lcFootprint, he])
      rw [cellAt_setCell_ne _ _ _ _ _ _
          (fun hq => hp2 (Prod.ext hq.1 hq.2)),
        cellAt_setCell_ne _ _ _ _ _ _
          (fun hq => hp1 (Prod.ext hq.1 hq.2))]
    have hfoot1 : ∀ cr2 ∈ rest,
        ((lcSecond cr2).1 < GRID_SIZE ∧ (lcSecond cr2).2 < GRID_SIZE) ∧
        ∀ p ∈ lcFootprint cr2, cellAt st1.grid p.1 p.2 = some emptyCell := by
      intro cr2 h2
      refine ⟨(hfoot_rest cr2 h2).1, ?_⟩
      intro p hp
      have hpn : p ∉ lcFootprint cr := fun hin =>
        hdisj_head cr2 h2 p hin hp
      rw [hst1_frame p hpn]
      exact (hfoot_rest cr2 h2).2 p hp
    have hagree1' : agreeFromB st1 rest = true := by
      rw [← hsucc] at *
      exact hagree1
    obtain ⟨dimsF, hcrsF, htrsF, hframeF, hcellsF⟩ :=
      ih st1 hdims1 hfoot1 hdisj_rest hagree1'
    refine ⟨dimsF, ?_, ?_, ?_, ?_⟩
    · rw [hcrsF]
      have : st1.crossings = st.crossings ++
          [⟨cr.row, cr.col, st.nextMeshId, false, cr.horizontal, 0, 0⟩] := rfl
      rw [this]
      simp [projCrossing]
    · exact htrsF
    · intro r c hout
      rw [hframeF r c (fun cr2 h2 => hout cr2 (List.mem_cons_of_mem _ h2))]
      exact hst1_frame (r, c) (hout cr (List.mem_cons_self _ _))
    · intro cr2 hmem p hp
      rcases List.mem_cons.mp hmem with rfl | hmem2
      · -- the head crossing: its two cells were just written
        have hrest_miss : ∀ cr3 ∈ rest, p ∉ lcFootprint cr3 :=
          fun cr3 h3 => hdisj_head cr3 h3 p hp
        rw [hframeF p.1 p.2 (by
          intro cr3 h3
          have := hrest_miss cr3 h3
          simpa using this)]
        rcases (by simpa [lcFootprint] using hp :
            p = (cr2.row, cr2.col) ∨ p = lcSecond cr2) with rfl | rfl
        · -- start cell
          refine ⟨startCell, ?_, rfl, rfl⟩
          show cellAt st1.grid cr2.row cr2.col = some startCell
          rw [hst1]
          simp only []
          rw [cellAt_setCell_ne _ _ _ _ _ _ (lcSecond_ne_start cr2)]
          exact cellAt_setCell_self _ _ _ _ _ hcur
        · -- end cell
          refine ⟨endCell, ?_, rfl, rfl⟩
          show cellAt st1.grid (lcSecond cr2).1 (lcSecond cr2).2 =
            some endCell
          rw [hst1]
          simp only []
          have hinner : cellAt (setCell st.grid cr2.row cr2.col startCell)
              (lcSecond cr2).1 (lcSecond cr2).2 = some emptyCell := by
            rw [cellAt_setCell_ne _ _ _ _ _ _ (start_ne_lcSecond cr2)]
            exact hnext
          exact cellAt_setCell_self _ _ _ _ _ hinner
      · exact hcellsF cr2 hmem2 p hp

/-! ## Train-loading phase: the grid and crossing list are untouched -/

lemma placeTrain_grid_crossings (st : SimState) (row col : Int)
    (et : String) :
    (placeTrain st row col et).grid = st.grid ∧
    (placeTrain st row col et).crossings = st.crossings := by
  unfold placeTrain
  split
  · exact ⟨rfl, rfl⟩
  · split
    · exact ⟨rfl, rfl⟩
    · exact ⟨rfl, rfl⟩

lemma loadOneTrain_grid_crossings (st : SimState) (td : LayoutTrain) :
    (loadOneTrain st td).grid = st.grid ∧
    (loadOneTrain st td).crossings = st.crossings := by
  simp only [loadOneTrain]
  obtain ⟨h1, h2⟩ := placeTrain_grid_crossings st td.row td.col td.engineType
  split
  · exact ⟨h1, h2⟩
  · exact ⟨h1, h2⟩

lemma loadTrains_grid_crossings (tds : List LayoutTrain) (st : SimState) :
    (tds.foldl loadOneTrain st).grid = st.grid ∧
    (tds.foldl loadOneTrain st).crossings = st.crossings := by
  induction tds generalizing st with
  | nil => exact ⟨rfl, rfl⟩
  | cons td rest ih =>
    simp only [List.foldl_cons]
    obtain ⟨h1, h2⟩ := ih (loadOneTrain st td)
    obtain ⟨h3, h4⟩ := loadOneTrain_grid_crossings st td
    exact ⟨h1.trans h3, h2.trans h4⟩

lemma gridDims_initGrid : gridDims initGrid := by
  constructor
  · simp [initGrid]
  · intro rowArr h
    rw [List.eq_of_mem_replicate h]
    simp

/-- C9 (amended): export-then-load round trip.  For a well-formed layout
state whose crossing orientations re-derive to their recorded values
during the load (`agreeFromB`), loading the exported document reproduces
every cell's track type (crossing end cells re-derived) and recreates
every crossing at its recorded `(row, col)` with its recorded
orientation.  (Without the orientation-agreement hypothesis this fails:
loading re-derives each crossing's orientation from the loaded neighbors
instead of reading the document's `horizontal` flag — see the
counterexample.) -/
theorem loadLayout_exportLayout_roundtrip (S : SimState)
    (hwf : RoundTripWF S)
    (hagree : agreeFromB (loadTracks (loadClear S) (exportLayout S))
      (exportLayout S).crossings = true) :
    (∀ r ∈ intRange16, ∀ c ∈ intRange16,
      cellTrackType (loadLayout S (exportLayout S)) r c =
        cellTrackType S r c) ∧
    (loadLayout S (exportLayout S)).crossings.map projCrossing =
      (exportLayout S).crossings ∧
    (exportLayout S).crossings = S.crossings.map projCrossing := by
  have hGS : (GRID_SIZE : Int) = 16 := rfl
  set l := exportLayout S with hl
  have hexp : l.crossings = S.crossings.map projCrossing := export_crossings S
  -- the state after the track-loading phase
  have hT0dims : gridDims (loadTracks (loadClear S) l).grid :=
    trackFold_dims _ _ _ gridDims_initGrid
  -- footprints of original crossings = footprints of document crossings
  have hOUT : ∀ p : Int × Int,
      (∃ e ∈ S.crossings, p ∈ crossFootprint e) ↔
      ∃ cr ∈ l.crossings, p ∈ lcFootprint cr := by
    intro p
    rw [hexp]
    constructor
    · rintro ⟨e, he, hp⟩
      exact ⟨projCrossing e, List.mem_map_of_mem _ he,
        by rwa [lcFootprint_projCrossing]⟩
    · rintro ⟨cr, hcr, hp⟩
      rcases List.mem_map.mp hcr with ⟨e, he, rfl⟩
      exact ⟨e, he, by rwa [lcFootprint_projCrossing] at hp⟩
  -- footprint cells are empty after the track phase
  have hfootT0 : ∀ cr ∈ l.crossings,
      ((lcSecond cr).1 < GRID_SIZE ∧ (lcSecond cr).2 < GRID_SIZE) ∧
      ∀ p ∈ lcFootprint cr,
        cellAt (loadTracks (loadClear S) l).grid p.1 p.2 =
          some emptyCell := by
    intro cr hcr
    rcases List.mem_map.mp (hexp ▸ hcr) with ⟨e, he, rfl⟩
    obtain ⟨hbnds, hcells⟩ := hwf.entities e he
    obtain ⟨b1, b2, b3, b4, b5, b6⟩ := hbnds
    refine ⟨by rw [lcSecond_projCrossing]; exact ⟨b5, b6⟩, ?_⟩
    intro p hp
    rw [lcFootprint_projCrossing] at hp
    have hpb : 0 ≤ p.1 ∧ p.1 < 16 ∧ 0 ≤ p.2 ∧ p.2 < 16 := by
      rcases (by simpa [crossFootprint] using hp :
          p = (e.row, e.col) ∨ p = crossingSecondCell e) with rfl | rfl
      · exact ⟨b1, b2, b3, b4⟩
      · cases hh : e.horizontal <;>
          simp only [crossingSecondCell, hh, Bool.false_eq_true, if_false,
            if_true, reduceIte] at b5 b6 ⊢ <;>
          omega
    show cellAt (l.tracks.foldl (fun st tr =>
      if (tr.row, tr.col) ∈ crossingCellsOf l then st
      else placeTrackPiece st tr.row tr.col tr.trackType)
        (loadClear S)).grid p.1 p.2 = some emptyCell
    rw [trackFold_no_hit _ _ _ _ _ ?_]
    · show cellAt initGrid p.1 p.2 = some emptyCell
      rw [cellAt_initGrid, if_pos ⟨hpb.1, hpb.2.1, hpb.2.2.1, hpb.2.2.2⟩]
    · intro tr htr
      by_cases hts : tr.row = p.1 ∧ tr.col = p.2
      · left
        have hpt : (tr.row, tr.col) = p := Prod.ext hts.1 hts.2
        rw [hpt]
        refine (mem_crossingCellsOf l p).mpr
          ⟨projCrossing e, ?_, by rw [lcFootprint_projCrossing]; exact hp⟩
        rw [hexp]
        exact List.mem_map_of_mem _ he
      · right
        exact hts
  -- pairwise-disjoint document footprints
  have hdisjl : l.crossings.Pairwise fun c1 c2 =>
      ∀ p ∈ lcFootprint c1, p ∉ lcFootprint c2 := by
    rw [hexp]
    refine List.Pairwise.map _ ?_ hwf.disjointFp
    intro e1 e2 hrel p hp1 hp2
    rw [lcFootprint_projCrossing] at hp1 hp2
    exact hrel p hp1 hp2
  obtain ⟨dimsF, hcrsF, htrsF, hframeF, hcellsF⟩ :=
    crossFold_spec l.crossings (loadTracks (loadClear S) l) hT0dims hfootT0
      hdisjl hagree
  -- the final state's grid and crossings come from the crossing phase
  have hfin := loadTrains_grid_crossings l.trains
    (loadCrossings (loadTracks (loadClear S) l) l)
  have hfing : (loadLayout S l).grid =
      (l.crossings.foldl (fun st cr => placeCrossing st cr.row cr.col)
        (loadTracks (loadClear S) l)).grid := hfin.1
  have hfinc : (loadLayout S l).crossings =
      (l.crossings.foldl (fun st cr => placeCrossing st cr.row cr.col)
        (loadTracks (loadClear S) l)).crossings := hfin.2
  have hT0crs : (loadTracks (loadClear S) l).crossings = [] :=
    (trackFold_crossings_trains (crossingCellsOf l) l.tracks
      (loadClear S)).1
  refine ⟨?_, ?_, hexp⟩
  case refine_2 =>
    rw [hfinc, hcrsF, hT0crs]
    simp
  -- per-cell track types
  intro r hr c hc
  obtain ⟨hr0, hr16⟩ := (mem_intRange16 r).mp hr
  obtain ⟨hc0, hc16⟩ := (mem_intRange16 c).mp hc
  obtain ⟨cell, hcell⟩ := cellAt_some_of_dims S.grid r c hwf.dims
    ⟨hr0, hr16⟩ ⟨hc0, hc16⟩
  by_cases hA : ∃ e ∈ S.crossings, (r, c) ∈ crossFootprint e
  · -- a crossing footprint cell: rewritten by the crossing phase
    obtain ⟨e, he, hpe⟩ := hA
    obtain ⟨cell2, hcell2, htrk2, htt2⟩ :=
      hcellsF (projCrossing e) (by rw [hexp]; exact List.mem_map_of_mem _ he)
        (r, c) (by rw [lcFootprint_projCrossing]; exact hpe)
    obtain ⟨_, hcells⟩ := hwf.entities e he
    obtain ⟨cell3, hcell3, htrk3, htt3⟩ := by
      have := hcells (r, c) hpe
      simpa using this
    have hcc : cell3 = cell := by
      rw [hcell] at hcell3
      exact (Option.some.inj hcell3).symm
    unfold cellTrackType
    rw [hfing, hcell2, hcell]
    simp only [htrk2, if_true, reduceIte]
    have : cell.isTrack = true := by rw [← hcc]; exact htrk3
    simp only [this, if_true, reduceIte]
    rw [htt2, ← hcc, htt3]
    unfold crossTT projCrossing
    rfl
  · -- not a footprint cell: untouched by the crossing phase
    push_neg at hA
    have hnofp : ∀ cr ∈ l.crossings, (r, c) ∉ lcFootprint cr := by
      intro cr hcr hp
      rcases (hOUT (r, c)).mpr ⟨cr, hcr, hp⟩ with ⟨e, he, hpe⟩
      exact hA e he hpe
    have hframe := hframeF r c hnofp
    unfold cellTrackType
    rw [hfing, hframe, hcell]
    by_cases htrk : cell.isTrack = true
    · by_cases hend : cell.isCrossingEnd = true
      · exfalso
        obtain ⟨e, he, hsec⟩ := hwf.endCells r hr c hc cell
          (by simp [hcell]) htrk hend
        exact hA e he (by rw [hsec]; simp [crossFootprint])
      · -- an ordinary track cell (not a crossing end)
        cases htt : cell.trackType with
        | none =>
          -- no exported entry targets this cell
          have hT0v : cellAt (loadTracks (loadClear S) l).grid r c =
              some emptyCell := by
            show cellAt (l.tracks.foldl (fun st tr =>
              if (tr.row, tr.col) ∈ crossingCellsOf l then st
              else placeTrackPiece st tr.row tr.col tr.trackType)
                (loadClear S)).grid r c = some emptyCell
            rw [trackFold_no_hit _ _ _ _ _ ?_]
            · show cellAt initGrid r c = some emptyCell
              rw [cellAt_initGrid, if_pos ⟨hr0, hr16, hc0, hc16⟩]
            · intro tr htr
              right
              intro ⟨h1, h2⟩
              obtain ⟨_, cell4, hcell4, _, _, htt4⟩ :=
                (export_tracks_mem S tr).mp htr
              rw [h1, h2, hcell] at hcell4
              cases hcell4
              rw [htt] at htt4
              cases htt4
          rw [hT0v]
          simp [emptyCell, htrk, htt]
        | some tt =>
          -- the entry is exported and survives the load
          have hmem : (⟨r, c, tt⟩ : LayoutTrack) ∈ l.tracks :=
            (export_tracks_mem S ⟨r, c, tt⟩).mpr
              ⟨⟨hr0, hr16, hc0, hc16⟩, cell, hcell, htrk,
                (by simpa using hend), htt⟩
          have hnskip : ((⟨r, c, tt⟩ : LayoutTrack).row,
              (⟨r, c, tt⟩ : LayoutTrack).col) ∉ crossingCellsOf l := by
            intro hin
            rcases (mem_crossingCellsOf l _).mp hin with ⟨cr, hcr, hp⟩
            rcases (hOUT _).mpr ⟨cr, hcr, hp⟩ with ⟨e, he, hpe⟩
            exact hA e he hpe
          obtain ⟨m, tt2, hT0cell, tr2, htr2, hsk2, hrow2, hcol2, htt2⟩ :=
            trackFold_hit (crossingCellsOf l) l.tracks (loadClear S) r c
              gridDims_initGrid ⟨hr0, hr16⟩ ⟨hc0, hc16⟩
              ⟨⟨r, c, tt⟩, hmem, hnskip, rfl, rfl⟩
          obtain ⟨_, cell5, hcell5, _, _, htt5⟩ :=
            (export_tracks_mem S tr2).mp htr2
          rw [hrow2, hcol2, hcell] at hcell5
          cases hcell5
          rw [htt] at htt5
          cases htt5
          have hT0v : cellAt (loadTracks (loadClear S) l).grid r c =
              some (plainTrackCell tt2 m) := hT0cell
          rw [hT0v]
          simp [plainTrackCell, htrk, htt, htt2]
    · -- not a track cell: nothing is exported for it, it stays empty
      have hT0v : cellAt (loadTracks (loadClear S) l).grid r c =
          some emptyCell := by
        show cellAt (l.tracks.foldl (fun st tr =>
          if (tr.row, tr.col) ∈ crossingCellsOf l then st
          else placeTrackPiece st tr.row tr.col tr.trackType)
            (loadClear S)).grid r c = some emptyCell
        rw [trackFold_no_hit _ _ _ _ _ ?_]
        · show cellAt initGrid r c = some emptyCell
          rw [cellAt_initGrid, if_pos ⟨hr0, hr16, hc0, hc16⟩]
        · intro tr htr
          right
          intro ⟨h1, h2⟩
          obtain ⟨_, cell4, hcell4, htrk4, _, _⟩ :=
            (export_tracks_mem S tr).mp htr
          rw [h1, h2, hcell] at hcell4
          cases hcell4
          exact htrk htrk4
      rw [hT0v]
      simp [emptyCell, htrk]

/-- Witness for the C9 round-trip theorem: the single-crossing state
`exLoneCrossingState` satisfies well-formedness and orientation
agreement, and the round trip reproduces the crossing's second cell and
the crossing list. -/
theorem loadLayout_exportLayout_roundtrip_witness :
    cellTrackType (loadLayout exLoneCrossingState
        (exportLayout exLoneCrossingState)) 5 6 =
      cellTrackType exLoneCrossingState 5 6 ∧
    (loadLayout exLoneCrossingState
        (exportLayout exLoneCrossingState)).crossings.map projCrossing =
      (exportLayout exLoneCrossingState).crossings := by
  have h := loadLayout_exportLayout_roundtrip exLoneCrossingState
    ⟨by unfold gridDims; decide, by decide, by decide, by decide⟩
    (by decide)
  exact ⟨h.1 5 (by decide) 6 (by decide), h.2.1⟩

end Kaitrain
